import Mathlib

/-!
Verification development for the `vc-audit-tool-mvp` valuation core.

The Python source is shallowly embedded: `decimal.Decimal` values flow through
the methodology arithmetic as exact rationals, with the default decimal context
(precision 28, `ROUND_HALF_EVEN`) applied after every arithmetic operation the
source performs, exactly as CPython's `decimal` module does; `datetime.date` is
a year/month/day record with proleptic-Gregorian ordinal arithmetic; Python
runtime values appearing in request `inputs` are an inductive `Val`; fallible
code returns `Except Err`.
-/

namespace VCAudit

/-- Fuel-driven base-10 digit counter: `dcAux fuel n` is the number of base-10
digits of `n` (0 for `n = 0`) provided `fuel ≥ n`. Structural recursion on the
fuel keeps it kernel-reducible. -/
def dcAux : Nat → Nat → Nat
  | 0, _ => 0
  | fuel + 1, n => if n = 0 then 0 else dcAux fuel (n / 10) + 1

/-- Number of base-10 digits of a natural number (0 for 0). -/
def digCount (n : Nat) : Nat := dcAux n n

theorem dcAux_zero (fuel : Nat) : dcAux fuel 0 = 0 := by
  cases fuel <;> simp [dcAux]

theorem dcAux_bounds : ∀ fuel n, n ≤ fuel → 1 ≤ n →
    10 ^ (dcAux fuel n - 1) ≤ n ∧ n < 10 ^ dcAux fuel n := by
  intro fuel
  induction fuel with
  | zero => intro n h1 h2; omega
  | succ f ih =>
    intro n hn h1
    rw [dcAux, if_neg (by omega)]
    by_cases h10 : n / 10 = 0
    · rw [h10, dcAux_zero]
      constructor
      · simpa using h1
      · have : n < 10 := by omega
        simpa using this
    · have hlt : n / 10 < n := Nat.div_lt_self (by omega) (by omega)
      have hle : n / 10 ≤ f := by omega
      obtain ⟨ihl, ihr⟩ := ih (n / 10) hle (by omega)
      have hd1 : 1 ≤ dcAux f (n / 10) := by
        by_contra hc
        have h0 : dcAux f (n / 10) = 0 := by omega
        rw [h0] at ihr
        omega
      set d := dcAux f (n / 10) with hd
      have hpow : 10 ^ d = 10 * 10 ^ (d - 1) := by
        conv_lhs => rw [show d = (d - 1) + 1 by omega]
        rw [pow_succ]
        ring
      have hpow2 : 10 ^ (d + 1) = 10 * 10 ^ d := by
        rw [pow_succ]; ring
      refine ⟨?_, ?_⟩
      · simp only [Nat.add_sub_cancel]
        omega
      · omega

theorem digCount_bounds (n : Nat) (h : 1 ≤ n) :
    10 ^ (digCount n - 1) ≤ n ∧ n < 10 ^ digCount n :=
  dcAux_bounds n n le_rfl h

theorem digCount_pos (n : Nat) (h : 1 ≤ n) : 1 ≤ digCount n := by
  by_contra hc
  have h0 : digCount n = 0 := by omega
  have := (digCount_bounds n h).2
  rw [h0] at this
  omega

/-- Decimal magnitude of a nonzero rational: the unique `e` with
`10 ^ e ≤ |q| < 10 ^ (e + 1)` (garbage 0 at `q = 0`). This is the exponent of
the leading significant digit, as CPython's decimal context uses it. -/
def qMag (q : ℚ) : ℤ :=
  let t : ℤ := (digCount q.num.natAbs : ℤ) - (digCount q.den : ℤ)
  if (10 : ℚ) ^ t ≤ |q| then t else t - 1

theorem abs_rat_eq (q : ℚ) : |q| = (q.num.natAbs : ℚ) / (q.den : ℚ) := by
  have hdenpos : (0 : ℚ) < (q.den : ℚ) := by exact_mod_cast q.pos
  conv_lhs => rw [← Rat.num_div_den q]
  rw [abs_div, Int.cast_natAbs, abs_of_pos hdenpos, Int.cast_abs]

theorem qMag_spec (q : ℚ) (hq : q ≠ 0) :
    (10 : ℚ) ^ qMag q ≤ |q| ∧ |q| < (10 : ℚ) ^ (qMag q + 1) := by
  have hnum : 1 ≤ q.num.natAbs := by
    have : q.num ≠ 0 := Rat.num_ne_zero.mpr hq
    omega
  have hden : 1 ≤ q.den := q.pos
  obtain ⟨ha1, ha2⟩ := digCount_bounds q.num.natAbs hnum
  obtain ⟨hb1, hb2⟩ := digCount_bounds q.den hden
  set da := digCount q.num.natAbs with hda
  set db := digCount q.den with hdb
  have hda1 : 1 ≤ da := digCount_pos _ hnum
  have hdb1 : 1 ≤ db := digCount_pos _ hden
  have hdenpos : (0 : ℚ) < (q.den : ℚ) := by exact_mod_cast q.pos
  have hten : (10 : ℚ) ≠ 0 := by norm_num
  set t : ℤ := (da : ℤ) - (db : ℤ) with ht
  -- numerator and denominator digit bounds transported to ℚ
  have hA1 : (10 : ℚ) ^ ((da : ℤ) - 1) ≤ (q.num.natAbs : ℚ) := by
    have : ((10 ^ (da - 1) : ℕ) : ℚ) ≤ (q.num.natAbs : ℚ) := by exact_mod_cast ha1
    have he : ((da : ℤ) - 1) = ((da - 1 : ℕ) : ℤ) := by omega
    rw [he, zpow_natCast]
    simpa using this
  have hA2 : (q.num.natAbs : ℚ) < (10 : ℚ) ^ (da : ℤ) := by
    have : (q.num.natAbs : ℚ) < ((10 ^ da : ℕ) : ℚ) := by exact_mod_cast ha2
    simpa [zpow_natCast] using this
  have hB1 : (10 : ℚ) ^ ((db : ℤ) - 1) ≤ (q.den : ℚ) := by
    have : ((10 ^ (db - 1) : ℕ) : ℚ) ≤ (q.den : ℚ) := by exact_mod_cast hb1
    have he : ((db : ℤ) - 1) = ((db - 1 : ℕ) : ℤ) := by omega
    rw [he, zpow_natCast]
    simpa using this
  have hB2 : (q.den : ℚ) < (10 : ℚ) ^ (db : ℤ) := by
    have : (q.den : ℚ) < ((10 ^ db : ℕ) : ℚ) := by exact_mod_cast hb2
    simpa [zpow_natCast] using this
  have habs : |q| = (q.num.natAbs : ℚ) / (q.den : ℚ) := abs_rat_eq q
  -- |q| < 10 ^ (t + 1)
  have hup : |q| < (10 : ℚ) ^ (t + 1) := by
    rw [habs, div_lt_iff hdenpos]
    calc (q.num.natAbs : ℚ) < (10 : ℚ) ^ (da : ℤ) := hA2
      _ = (10 : ℚ) ^ (t + 1) * (10 : ℚ) ^ ((db : ℤ) - 1) := by
          rw [← zpow_add₀ hten]; congr 1; omega
      _ ≤ (10 : ℚ) ^ (t + 1) * (q.den : ℚ) := by
          apply mul_le_mul_of_nonneg_left hB1 (by positivity)
  -- 10 ^ (t - 1) ≤ |q|
  have hlow : (10 : ℚ) ^ (t - 1) ≤ |q| := by
    rw [habs, le_div_iff hdenpos]
    calc (10 : ℚ) ^ (t - 1) * (q.den : ℚ)
        ≤ (10 : ℚ) ^ (t - 1) * (10 : ℚ) ^ (db : ℤ) := by
          apply mul_le_mul_of_nonneg_left (le_of_lt hB2) (by positivity)
      _ = (10 : ℚ) ^ ((da : ℤ) - 1) := by
          rw [← zpow_add₀ hten]; congr 1; omega
      _ ≤ (q.num.natAbs : ℚ) := hA1
  rw [qMag]
  simp only [← ht]
  by_cases hif : (10 : ℚ) ^ t ≤ |q|
  · rw [if_pos hif]
    exact ⟨hif, hup⟩
  · rw [if_neg hif]
    constructor
    · exact hlow
    · have : |q| < (10 : ℚ) ^ t := lt_of_not_le hif
      simpa using this

/-- Round-half-even of a rational to an integer, as CPython decimal
`ROUND_HALF_EVEN` does at integer scale (`Rat.floor` is used directly because
it evaluates in the kernel; it is definitionally the `⌊·⌋` of ℚ). -/
def rndHE (q : ℚ) : ℤ :=
  let f := Rat.floor q
  let r := q - (f : ℚ)
  if r < 1 / 2 then f
  else if 1 / 2 < r then f + 1
  else if f % 2 = 0 then f else f + 1

theorem ratFloor_eq_floor (q : ℚ) : Rat.floor q = ⌊q⌋ := rfl

theorem rndHE_intCast (k : ℤ) : rndHE (k : ℚ) = k := by
  rw [rndHE]
  simp [ratFloor_eq_floor]

/-- Round a rational to an integral multiple of `10 ^ e`, half-even. -/
def roundAt (e : ℤ) (q : ℚ) : ℚ := (rndHE (q * (10 : ℚ) ^ (-e)) : ℚ) * (10 : ℚ) ^ e

theorem roundAt_exact (e : ℤ) (q : ℚ) (k : ℤ) (h : q = (k : ℚ) * (10 : ℚ) ^ e) :
    roundAt e q = q := by
  have hten : (10 : ℚ) ≠ 0 := by norm_num
  rw [roundAt, h]
  rw [mul_assoc, ← zpow_add₀ hten]
  simp [rndHE_intCast]

/-- Context rounding of the default CPython decimal context: the exact result
of an operation is rounded to 28 significant digits, `ROUND_HALF_EVEN`. -/
def ctxRound (q : ℚ) : ℚ := if q = 0 then 0 else roundAt (qMag q - 27) q

theorem ctxRound_zero : ctxRound 0 = 0 := by simp [ctxRound]

/-- Context rounding is exact on values that are integral multiples of
`10 ^ (mag - 27)`, i.e. on values with at most 28 significant digits. -/
theorem ctxRound_exact (q : ℚ) (k : ℤ) (h : q = (k : ℚ) * (10 : ℚ) ^ (qMag q - 27)) :
    ctxRound q = q := by
  by_cases hq : q = 0
  · rw [hq, ctxRound_zero]
  · rw [ctxRound, if_neg hq]
    exact roundAt_exact _ _ k h

theorem ctxRound_one : ctxRound 1 = 1 := by
  have h : qMag 1 = 0 := by decide
  apply ctxRound_exact 1 (10 ^ 27)
  rw [h]
  rw [Int.cast_pow]
  push_cast
  rw [← zpow_natCast (10 : ℚ) 27, ← zpow_add₀ (by norm_num : (10 : ℚ) ≠ 0)]
  norm_num

/-- Decimal context addition. -/
def addC (a b : ℚ) : ℚ := ctxRound (a + b)

/-- Decimal context subtraction. -/
def subC (a b : ℚ) : ℚ := ctxRound (a - b)

/-- Decimal context multiplication. -/
def mulC (a b : ℚ) : ℚ := ctxRound (a * b)

/-- Decimal context division (the exact quotient rounded to 28 significant
digits; callers in this code base never divide by zero). -/
def divC (a b : ℚ) : ℚ := ctxRound (a / b)

/-- Error kinds crossing the core boundary. `validation` embeds the
repository's `ValidationError`, `dataSource` its `DataSourceError`; the
remaining constructors model standard-library exceptions that the source does
not catch (`decimal.InvalidOperation`, `statistics.StatisticsError`,
`AttributeError`, `KeyError`). -/
inductive Err where
  | validation (msg : String)
  | dataSource (msg : String)
  | invalidOperation (msg : String)
  | statisticsError (msg : String)
  | attributeError (msg : String)
  | keyError (msg : String)
deriving DecidableEq

/-- Model of `Decimal.quantize(Decimal("0.01"))` under the default context:
rescale to exponent -2 with `ROUND_HALF_EVEN`; CPython raises
`InvalidOperation` when the rescaled coefficient exceeds 28 digits. -/
def quantize2 (q : ℚ) : Except Err ℚ :=
  let k := rndHE (q * 100)
  if k.natAbs < 10 ^ 28 then .ok ((k : ℚ) / 100)
  else .error (.invalidOperation "quantize result has too many digits")

/-- Python runtime values that can appear in a request `inputs` mapping.
Binary floats are not modelled; every concrete payload exercised by the
claims uses ints, strings, booleans, lists, dicts and None. -/
inductive Val where
  | vint (n : ℤ)
  | vstr (s : String)
  | vbool (b : Bool)
  | vlist (xs : List Val)
  | vdict (xs : List (String × Val))
  | vnull

mutual

/-- Python `repr` of a value (scoped to the constructors of `Val`; string
escaping inside reprs is not modelled — no claim depends on repr text). -/
def pyRepr : Val → String
  | .vint n => toString n
  | .vstr s => "\x27" ++ s ++ "\x27"
  | .vbool b => cond b "True" "False"
  | .vnull => "None"
  | .vlist xs => "[" ++ pyReprList xs ++ "]"
  | .vdict xs => "\x7b" ++ pyReprDict xs ++ "\x7d"

/-- Comma-joined reprs of list elements. -/
def pyReprList : List Val → String
  | [] => ""
  | [v] => pyRepr v
  | v :: r => pyRepr v ++ ", " ++ pyReprList r

/-- Comma-joined `key: value` reprs of dict items. -/
def pyReprDict : List (String × Val) → String
  | [] => ""
  | [(k, v)] => "\x27" ++ k ++ "\x27: " ++ pyRepr v
  | (k, v) :: r => "\x27" ++ k ++ "\x27: " ++ pyRepr v ++ ", " ++ pyReprDict r

end

/-- Python `str` of a value (`str` and `repr` agree except on strings). -/
def pyStr : Val → String
  | .vint n => toString n
  | .vstr s => s
  | .vbool b => cond b "True" "False"
  | .vnull => "None"
  | .vlist xs => pyRepr (.vlist xs)
  | .vdict xs => pyRepr (.vdict xs)

/-- Python `type(v).__name__` for the modelled values. -/
def pyTypeName : Val → String
  | .vint _ => "int"
  | .vstr _ => "str"
  | .vbool _ => "bool"
  | .vlist _ => "list"
  | .vdict _ => "dict"
  | .vnull => "NoneType"

/-- Python truthiness of a value. -/
def pyTruthy : Val → Bool
  | .vint n => !(n == 0)
  | .vstr s => !(s == "")
  | .vbool b => b
  | .vlist xs => !xs.isEmpty
  | .vdict xs => !xs.isEmpty
  | .vnull => false

/-- Whether the value is a Python `list`. -/
def Val.isList : Val → Bool
  | .vlist _ => true
  | _ => false

/-- Whether the value is a Python `str`. -/
def Val.isStr : Val → Bool
  | .vstr _ => true
  | _ => false

/-- Request `inputs` mapping (Python dict with string keys). -/
abbrev Inputs := List (String × Val)

/-- Python `dict.get(key)` (None default collapses to `none`). -/
def pyGet : Inputs → String → Option Val
  | [], _ => none
  | (k, v) :: rest, key => if k = key then some v else pyGet rest key

/-- Python `dict.get(key, default)`. -/
def pyGetD (l : Inputs) (key : String) (dflt : Val) : Val := (pyGet l key).getD dflt

/-- Mapping with one key removed (used to state claims about absent keys). -/
def pyDrop (l : Inputs) (key : String) : Inputs := l.filter (fun p => p.1 != key)

theorem pyGet_pyDrop_ne (l : Inputs) (key k : String) (h : k ≠ key) :
    pyGet (pyDrop l key) k = pyGet l k := by
  induction l with
  | nil => rfl
  | cons p rest ih =>
    by_cases hk : p.1 = key
    · have : (p.1 != key) = false := by simp [hk]
      simp only [pyDrop, List.filter] at *
      rw [this]
      rw [ih]
      have : ¬(p.1 = k) := by rw [hk]; exact fun hc => h hc.symm
      rw [pyGet, if_neg this]
    · have : (p.1 != key) = true := by simp [hk]
      simp only [pyDrop, List.filter] at *
      rw [this]
      rw [pyGet, pyGet, ih]

theorem pyGet_pyDrop_self (l : Inputs) (key : String) :
    pyGet (pyDrop l key) key = none := by
  induction l with
  | nil => rfl
  | cons p rest ih =>
    by_cases hk : p.1 = key
    · have : (p.1 != key) = false := by simp [hk]
      simp only [pyDrop, List.filter] at *
      rw [this, ih]
    · have : (p.1 != key) = true := by simp [hk]
      simp only [pyDrop, List.filter] at *
      rw [this, pyGet, if_neg hk, ih]

/-- Expected-type tags passed to `require_field` at its call sites. -/
inductive PyType where
  | pint
  | pfloat
  | pstr
  | pdict
deriving DecidableEq

/-- Name used in `require_field` error messages. -/
def PyType.tname : PyType → String
  | .pint => "int"
  | .pfloat => "float"
  | .pstr => "str"
  | .pdict => "dict"

/-- Python `isinstance` against one expected type (`bool` is a subclass of
`int`, so a boolean is an instance of `int`). -/
def isInstance (v : Val) : PyType → Bool
  | .pint => match v with
    | .vint _ => true
    | .vbool _ => true
    | _ => false
  | .pfloat => false
  | .pstr => match v with
    | .vstr _ => true
    | _ => false
  | .pdict => match v with
    | .vdict _ => true
    | _ => false

/-- Whether the value is a Python `bool`. -/
def Val.isBool : Val → Bool
  | .vbool _ => true
  | _ => false

/-- Embedding of `validation.require_field`. -/
def require_field (payload : Inputs) (key : String) (expected : List PyType) :
    Except Err Val :=
  match pyGet payload key with
  | none => .error (.validation ("Missing required field: \x27" ++ key ++ "\x27."))
  | some .vnull => .error (.validation ("Missing required field: \x27" ++ key ++ "\x27."))
  | some v =>
    if v.isBool && (expected.contains .pint || expected.contains .pfloat) then
      .error (.validation ("Field \x27" ++ key ++ "\x27 must be numeric, received bool."))
    else if expected.any (isInstance v) then .ok v
    else
      .error (.validation ("Field \x27" ++ key ++ "\x27 must be of type " ++
        String.intercalate ", " (expected.map PyType.tname) ++ ", received " ++
        pyTypeName v ++ "."))

/-- Values of CPython `Decimal` objects: finite (sign, coefficient, exponent),
infinities, and quiet/signaling NaN. -/
inductive PyDec where
  | fin (neg : Bool) (coeff : ℕ) (exp : ℤ)
  | inf (neg : Bool)
  | qnan
  | snan
deriving DecidableEq

/-- Numeric value of a finite decimal (0 for specials; special operands are
always dispatched before this is consulted). -/
def PyDec.toQ : PyDec → ℚ
  | .fin neg c e => (cond neg (-1) 1) * (c : ℚ) * (10 : ℚ) ^ e
  | _ => 0

/-- Result of the Python comparison `d < Decimal("0")`; `none` models the
`InvalidOperation` that comparing a NaN raises under the default context. -/
def PyDec.ltZero : PyDec → Option Bool
  | .fin neg c _ => some (neg && !(c == 0))
  | .inf neg => some neg
  | .qnan => none
  | .snan => none

/-- ASCII whitespace stripped by the `Decimal` constructor. -/
def isWSChar (c : Char) : Bool :=
  c = ' ' || c = '\t' || c = '\n' || c = '\r' || c = '\x0b' || c = '\x0c'

/-- ASCII decimal digit (CPython additionally accepts other Unicode decimal
digits; the model is scoped to ASCII, which covers every claim input). -/
def isDig (c : Char) : Bool := '0' ≤ c && c ≤ '9'

/-- Numeric value of an ASCII digit character. -/
def digVal (c : Char) : ℕ := c.toNat - 48

/-- Value of a big-endian ASCII digit string. -/
def digitsVal (l : List Char) : ℕ := l.foldl (fun a c => 10 * a + digVal c) 0

/-- Leading and trailing whitespace removal. -/
def stripEnds (l : List Char) : List Char :=
  ((l.dropWhile isWSChar).reverse.dropWhile isWSChar).reverse

/-- Whitespace stripped at the ends and underscores removed throughout, as the
`Decimal` constructor does before applying the numeric-string grammar. -/
def cleanNumStr (l : List Char) : List Char :=
  (stripEnds l).filter (fun c => c != '_')

/-- Case-insensitive match of the special values `Infinity`, `Inf`, `NaN` and
`sNaN` (the latter two with optional diagnostic digits). -/
def pdSpecial (body : List Char) : Option PyDec :=
  let lb := body.map Char.toLower
  if lb = "inf".data ∨ lb = "infinity".data then some (.inf false)
  else if lb.take 3 = "nan".data ∧ (lb.drop 3).all isDig then some .qnan
  else if lb.take 4 = "snan".data ∧ (lb.drop 4).all isDig then some .snan
  else none

/-- Split at the first exponent indicator `e`/`E`. -/
def splitExpAux : List Char → List Char × Option (List Char)
  | [] => ([], none)
  | c :: r =>
    if c = 'e' ∨ c = 'E' then ([], some r)
    else
      let p := splitExpAux r
      (c :: p.1, p.2)

/-- Mantissa grammar `digits [. digits] | . digits`; returns the coefficient
value and the number of fractional digits. -/
def pdMantissa (l : List Char) : Option (ℕ × ℕ) :=
  let d1 := l.takeWhile isDig
  let rest := l.drop d1.length
  match rest with
  | [] => if d1.isEmpty then none else some (digitsVal d1, 0)
  | c :: r2 =>
    if c = '.' ∧ r2.all isDig ∧ (d1 ≠ [] ∨ r2 ≠ []) then
      some (digitsVal (d1 ++ r2), r2.length)
    else none

/-- Exponent grammar `[sign] digits`. -/
def pdExp (l : List Char) : Option ℤ :=
  match l with
  | [] => none
  | c :: r =>
    if c = '+' then (if r ≠ [] ∧ r.all isDig then some ((digitsVal r : ℤ)) else none)
    else if c = '-' then (if r ≠ [] ∧ r.all isDig then some (-(digitsVal r : ℤ)) else none)
    else if (c :: r).all isDig then some ((digitsVal (c :: r) : ℤ)) else none

/-- Signless part of the numeric-string grammar. -/
def pdBody (neg : Bool) (body : List Char) : Option PyDec :=
  match pdSpecial body with
  | some (.inf _) => some (.inf neg)
  | some d => some d
  | none =>
    let p := splitExpAux body
    match pdMantissa p.1 with
    | none => none
    | some md =>
      match p.2 with
      | none => some (.fin neg md.1 (-(md.2 : ℤ)))
      | some el =>
        match pdExp el with
        | none => none
        | some e => some (.fin neg md.1 (e - md.2))

/-- CPython `Decimal(string)` construction: clean-up, optional sign, then the
decimal numeric-string grammar; `none` models `InvalidOperation`. -/
def pdParse (l : List Char) : Option PyDec :=
  match cleanNumStr l with
  | [] => none
  | c :: r =>
    if c = '+' then pdBody false r
    else if c = '-' then pdBody true r
    else pdBody false (c :: r)

/-- Decimal construction from a Lean string. -/
def pyDecOfString (s : String) : Option PyDec := pdParse s.data

/-- Embedding of `validation.parse_decimal`. The `try` in the source wraps
only the `Decimal(str(value))` construction, so the `parsed < Decimal("0")`
comparison can raise an uncaught `InvalidOperation` on NaN input. -/
def parse_decimal (v : Val) (fieldName : String) : Except Err PyDec :=
  match v with
  | .vbool _ =>
      .error (.validation ("Field \x27" ++ fieldName ++ "\x27 must be numeric, received bool."))
  | _ =>
    match pyDecOfString (pyStr v) with
    | none => .error (.validation ("Field \x27" ++ fieldName ++ "\x27 must be numeric."))
    | some d =>
      match d.ltZero with
      | none => .error (.invalidOperation "comparison involving NaN")
      | some true =>
          .error (.validation ("Field \x27" ++ fieldName ++ "\x27 must be non-negative."))
      | some false => .ok d

/-- Classifier used to state that a failure is of the validation kind. -/
def isValidationErr {α : Type} : Except Err α → Bool
  | .error (.validation _) => true
  | _ => false

/-- Calendar date, mirroring `datetime.date` (valid instances satisfy
`1 ≤ year ≤ 9999` and day-in-month bounds). -/
structure PyDate where
  year : ℕ
  month : ℕ
  day : ℕ
deriving DecidableEq

/-- Gregorian leap-year test. -/
def isLeap (y : ℕ) : Bool := y % 4 = 0 && (y % 100 != 0 || y % 400 = 0)

/-- Days in a month of a given year. -/
def daysInMonth (y m : ℕ) : ℕ :=
  if m = 2 then (if isLeap y then 29 else 28)
  else if m = 4 ∨ m = 6 ∨ m = 9 ∨ m = 11 then 30
  else 31

/-- Days in the year before the first of the given month. -/
def daysBeforeMonth (y m : ℕ) : ℕ :=
  let base :=
    if m ≤ 1 then 0
    else if m = 2 then 31
    else if m = 3 then 59
    else if m = 4 then 90
    else if m = 5 then 120
    else if m = 6 then 151
    else if m = 7 then 181
    else if m = 8 then 212
    else if m = 9 then 243
    else if m = 10 then 273
    else if m = 11 then 304
    else 334
  if 3 ≤ m ∧ isLeap y then base + 1 else base

/-- Days before January 1st of the given year (`datetime._days_before_year`). -/
def daysBeforeYear (y : ℕ) : ℕ :=
  365 * (y - 1) + (y - 1) / 4 - (y - 1) / 100 + (y - 1) / 400

/-- Proleptic Gregorian ordinal, with 0001-01-01 as day 1
(`datetime.date.toordinal`). -/
def toOrdinal (d : PyDate) : ℕ := daysBeforeYear d.year + daysBeforeMonth d.year d.month + d.day

/-- Inverse of `toOrdinal` on valid ordinals, ported from CPython
`datetime._ord2ymd`. -/
def fromOrdinal (n0 : ℕ) : PyDate :=
  let n := n0 - 1
  let n400 := n / 146097
  let n := n % 146097
  let n100 := n / 36524
  let n := n % 36524
  let n4 := n / 1461
  let n := n % 1461
  let n1 := n / 365
  let n := n % 365
  let year := n400 * 400 + n100 * 100 + n4 * 4 + n1 + 1
  if n1 = 4 ∨ n100 = 4 then ⟨year - 1, 12, 31⟩
  else
    let month := (n + 50) / 32
    let preceding := daysBeforeMonth year month
    if n < preceding then ⟨year, month - 1, n - daysBeforeMonth year (month - 1) + 1⟩
    else ⟨year, month, n - preceding + 1⟩

/-- Python `date` comparison (lexicographic on year, month, day). -/
def dateLe (a b : PyDate) : Bool :=
  a.year < b.year ||
    (a.year == b.year &&
      (a.month < b.month || (a.month == b.month && a.day ≤ b.day)))

/-- Zero-padded numeral of fixed width. -/
def natPad (width n : ℕ) : String :=
  let s := toString n
  String.mk (List.replicate (width - s.length) '0') ++ s

/-- Python `date.isoformat()`. -/
def isoformat (d : PyDate) : String :=
  natPad 4 d.year ++ "-" ++ natPad 2 d.month ++ "-" ++ natPad 2 d.day

/-- Calendar validity used by the `datetime.date` constructor. -/
def validYMD (y m d : ℕ) : Bool :=
  1 ≤ y && y ≤ 9999 && 1 ≤ m && m ≤ 12 && 1 ≤ d && d ≤ daysInMonth y m

/-- Ordinal of the Monday of ISO week 1 of a year
(`datetime._isoweek1monday`). -/
def isoweek1monday (y : ℕ) : ℤ :=
  let firstday : ℤ := toOrdinal ⟨y, 1, 1⟩
  let firstweekday := (firstday + 6) % 7
  let week1monday := firstday - firstweekday
  if 3 < firstweekday then week1monday + 7 else week1monday

/-- ISO year/week/day to Gregorian, with CPython's range checks: week 53 only
in long ISO years, and the converted ordinal must stay within year 1..9999. -/
def isoToGregorian (y w d : ℕ) : Option PyDate :=
  if ¬(1 ≤ y ∧ y ≤ 9999) then none
  else if ¬(1 ≤ w ∧ (w ≤ 52 ∨ (w = 53 ∧
      (toOrdinal ⟨y, 1, 1⟩ % 7 = 4 ∨ (toOrdinal ⟨y, 1, 1⟩ % 7 = 3 ∧ isLeap y))))) then none
  else if ¬(1 ≤ d ∧ d ≤ 7) then none
  else
    let o : ℤ := isoweek1monday y + 7 * ((w : ℤ) - 1) + ((d : ℤ) - 1)
    if 1 ≤ o ∧ o ≤ 3652059 then some (fromOrdinal o.toNat) else none

/-- One-digit and multi-digit ASCII numerals. -/
def dig1 (a : Char) : ℕ := digVal a

/-- Two-digit ASCII numeral. -/
def dig2 (a b : Char) : ℕ := 10 * digVal a + digVal b

/-- Four-digit ASCII numeral. -/
def dig4 (a b c d : Char) : ℕ :=
  1000 * digVal a + 100 * digVal b + 10 * digVal c + digVal d

/-- Calendar branch of `fromisoformat`: constructor range checks. -/
def mkCalendarDate (y m d : ℕ) : Option PyDate :=
  if validYMD y m d then some ⟨y, m, d⟩ else none

/-- Model of CPython 3.11+ `date.fromisoformat` on a character list: a
four-digit year followed by one of the shapes `-MM-DD`, `MMDD`, `-Www`,
`-Www-D`, `Www`, `WwwD` (separators must be used consistently, the weekday is
one digit), then constructor/range validation. -/
def isoParseChars (l : List Char) : Option PyDate :=
  match l with
  | [a, b, c, d, e, f, g, h, i, j] =>
    if isDig a ∧ isDig b ∧ isDig c ∧ isDig d then
      if e = '-' ∧ f = 'W' ∧ isDig g ∧ isDig h ∧ i = '-' ∧ isDig j then
        isoToGregorian (dig4 a b c d) (dig2 g h) (dig1 j)
      else if e = '-' ∧ isDig f ∧ isDig g ∧ h = '-' ∧ isDig i ∧ isDig j then
        mkCalendarDate (dig4 a b c d) (dig2 f g) (dig2 i j)
      else none
    else none
  | [a, b, c, d, e, f, g, h] =>
    if isDig a ∧ isDig b ∧ isDig c ∧ isDig d then
      if e = '-' ∧ f = 'W' ∧ isDig g ∧ isDig h then
        isoToGregorian (dig4 a b c d) (dig2 g h) 1
      else if e = 'W' ∧ isDig f ∧ isDig g ∧ isDig h then
        isoToGregorian (dig4 a b c d) (dig2 f g) (dig1 h)
      else if isDig e ∧ isDig f ∧ isDig g ∧ isDig h then
        mkCalendarDate (dig4 a b c d) (dig2 e f) (dig2 g h)
      else none
    else none
  | [a, b, c, d, e, f, g] =>
    if isDig a ∧ isDig b ∧ isDig c ∧ isDig d ∧ e = 'W' ∧ isDig f ∧ isDig g then
      isoToGregorian (dig4 a b c d) (dig2 f g) 1
    else none
  | _ => none

/-- CPython 3.11+ `date.fromisoformat`; `none` models the `ValueError` the
source catches. -/
def pyFromIso (s : String) : Option PyDate := isoParseChars s.data

/-- Specification-shaped date validator on characters, following the words of
spec §4.1: exactly the textual `YYYY-MM-DD` layout denoting a structurally
valid calendar date. Stated separately from the source-shaped parser so the
two can be compared. -/
def specDateChars (l : List Char) : Option PyDate :=
  match l with
  | [a, b, c, d, e, f, g, h, i, j] =>
    if isDig a = true ∧ isDig b = true ∧ isDig c = true ∧ isDig d = true ∧ e = '-' ∧
        isDig f = true ∧ isDig g = true ∧ h = '-' ∧ isDig i = true ∧ isDig j = true then
      if validYMD (dig4 a b c d) (dig2 f g) (dig2 i j) then
        some ⟨dig4 a b c d, dig2 f g, dig2 i j⟩
      else none
    else none
  | _ => none

/-- Specification-shaped `YYYY-MM-DD` validator on strings. -/
def specDateYYYYMMDD (s : String) : Option PyDate := specDateChars s.data

/-- Embedding of `validation.parse_date` (every `ValueError` from
`date.fromisoformat` is mapped to the same `ValidationError`). -/
def parse_date (v : Val) : Except Err PyDate :=
  match v with
  | .vstr s =>
    match pyFromIso s with
    | some d => .ok d
    | none =>
        .error (.validation ("Invalid date \x27" ++ s ++ "\x27. Expected format: YYYY-MM-DD."))
  | _ =>
      .error (.validation ("Date must be string in YYYY-MM-DD format, received " ++
        pyRepr v ++ "."))

/-- Stable insertion into a sorted list (an element goes before the first
entry it compares `le` to). -/
def insertSorted {α : Type} (le : α → α → Bool) (a : α) : List α → List α
  | [] => [a]
  | b :: r => if le a b then a :: b :: r else b :: insertSorted le a r

/-- Stable sort modelling Python `sorted`: structural recursion (so kernel
evaluation works), stable, and agreeing with any sort on a total preorder. -/
def pySortBy {α : Type} (le : α → α → Bool) : List α → List α
  | [] => []
  | a :: r => insertSorted le a (pySortBy le r)

/-- Embedding of `data_sources.MarketIndexPoint`. -/
structure MarketIndexPoint where
  as_of_date : PyDate
  level : ℚ
deriving DecidableEq

/-- NASDAQ_COMPOSITE history of `MockMarketIndexSource._INDEX_LEVELS`. -/
def nasdaqLevels : List (String × ℚ) :=
  [("2023-12-31", (15011.35 : ℚ)),
   ("2024-03-31", (16379.46 : ℚ)),
   ("2024-06-30", (17637.12 : ℚ)),
   ("2024-09-30", (16828.43 : ℚ)),
   ("2024-12-31", (18842.12 : ℚ)),
   ("2025-03-31", (18032.90 : ℚ)),
   ("2025-06-30", (19422.55 : ℚ)),
   ("2025-09-30", (20122.04 : ℚ)),
   ("2025-12-31", (20905.88 : ℚ)),
   ("2026-02-18", (21311.12 : ℚ))]

/-- RUSSELL_2000 history of `MockMarketIndexSource._INDEX_LEVELS`. -/
def russellLevels : List (String × ℚ) :=
  [("2023-12-31", (2011.44 : ℚ)),
   ("2024-03-31", (2107.88 : ℚ)),
   ("2024-06-30", (2056.31 : ℚ)),
   ("2024-09-30", (2190.04 : ℚ)),
   ("2024-12-31", (2251.11 : ℚ)),
   ("2025-03-31", (2176.92 : ℚ)),
   ("2025-06-30", (2294.53 : ℚ)),
   ("2025-09-30", (2340.19 : ℚ)),
   ("2025-12-31", (2389.44 : ℚ)),
   ("2026-02-18", (2412.90 : ℚ))]

/-- Lookup of `_INDEX_LEVELS[index_name]`. -/
def indexHistory (index_name : String) : Option (List (String × ℚ)) :=
  if index_name = "NASDAQ_COMPOSITE" then some nasdaqLevels
  else if index_name = "RUSSELL_2000" then some russellLevels
  else none

/-- Embedding of `MockMarketIndexSource.get_level` for a string index name:
sort the history dates, keep those on or before the requested date, choose the
latest, and return it with its level. -/
def get_level (index_name : String) (as_of_date : PyDate) : Except Err MarketIndexPoint :=
  match indexHistory index_name with
  | none => .error (.dataSource ("Unknown index \x27" ++ index_name ++ "\x27."))
  | some history =>
    let candidate_dates := pySortBy dateLe (history.filterMap (fun p => pyFromIso p.1))
    let available_dates := candidate_dates.filter (fun d => dateLe d as_of_date)
    match available_dates.getLast? with
    | none =>
        .error (.dataSource ("No index level for " ++ index_name ++ " on or before " ++
          isoformat as_of_date ++ "."))
    | some chosen =>
      match history.lookup (isoformat chosen) with
      | some lv => .ok ⟨chosen, lv⟩
      | none => .error (.keyError (isoformat chosen))

/-- Python passes the raw `public_index` input object to `get_level`; a
non-string object is never a dictionary key, so it reaches the unknown-index
error, whose message interpolates `str(index_name)`. -/
def getLevelV (index_name : Val) (as_of_date : PyDate) : Except Err MarketIndexPoint :=
  match index_name with
  | .vstr s => get_level s as_of_date
  | v => .error (.dataSource ("Unknown index \x27" ++ pyStr v ++ "\x27."))

/-- Embedding of `data_sources.ComparableCompany`. -/
structure ComparableCompany where
  ticker : String
  company_name : String
  sector : String
  ev_to_revenue : ℚ
deriving DecidableEq

/-- The `MockComparableCompanySource._COMPS` table. -/
def COMPS : List ComparableCompany :=
  [⟨"SNOW", "Snowflake", "enterprise_software", (13.1 : ℚ)⟩,
   ⟨"DDOG", "Datadog", "enterprise_software", (12.4 : ℚ)⟩,
   ⟨"MDB", "MongoDB", "enterprise_software", (9.2 : ℚ)⟩,
   ⟨"ZS", "Zscaler", "enterprise_software", (11.8 : ℚ)⟩,
   ⟨"S", "SentinelOne", "cybersecurity", (8.6 : ℚ)⟩,
   ⟨"CRWD", "CrowdStrike", "cybersecurity", (14.2 : ℚ)⟩,
   ⟨"OKTA", "Okta", "cybersecurity", (7.7 : ℚ)⟩,
   ⟨"NET", "Cloudflare", "infrastructure_software", (16.1 : ℚ)⟩,
   ⟨"FSLY", "Fastly", "infrastructure_software", (3.8 : ℚ)⟩,
   ⟨"ESTC", "Elastic", "infrastructure_software", (5.3 : ℚ)⟩]

/-- Embedding of `MockComparableCompanySource.list_by_sector`. -/
def list_by_sector (sector : String) : Except Err (List ComparableCompany) :=
  let comps := COMPS.filter (fun c => c.sector == sector)
  if comps.isEmpty then
    .error (.dataSource ("No comps configured for sector \x27" ++ sector ++ "\x27."))
  else .ok comps

/-- Elements of the ticker iterable must all be strings; `ticker.upper()` on
anything else raises `AttributeError`. -/
def valStrings : List Val → Option (List String)
  | [] => some []
  | .vstr s :: r => (valStrings r).map (fun t => s :: t)
  | _ :: _ => none

/-- Embedding of `MockComparableCompanySource.list_by_tickers`: build the
upper-cased ticker set, filter the table, and report every unresolved ticker
(sorted) in one data-source error. -/
def list_by_tickers (tickers : List Val) : Except Err (List ComparableCompany) :=
  match valStrings tickers with
  | none => .error (.attributeError "upper")
  | some strs =>
    let ticker_set := (strs.map String.toUpper).dedup
    let comps := COMPS.filter (fun c => ticker_set.contains c.ticker)
    let missing := pySortBy (fun a b => decide (a ≤ b))
      (ticker_set.filter (fun t => !((comps.map ComparableCompany.ticker).contains t)))
    if missing.isEmpty then .ok comps
    else
      .error (.dataSource ("Missing comps for tickers: " ++
        String.intercalate ", " missing ++ "."))

/-- Python `statistics.median` on exact values (`none` models
`StatisticsError` on empty data); for an even count the two middle values are
averaged with decimal context arithmetic, as `(a + b) / 2` does on `Decimal`. -/
def pyMedian (l : List ℚ) : Option ℚ :=
  let s := pySortBy (fun a b => decide (a ≤ b)) l
  let n := s.length
  if n = 0 then none
  else if n % 2 = 1 then s.get? (n / 2)
  else
    match s.get? (n / 2 - 1), s.get? (n / 2) with
    | some a, some b => some (divC (addC a b) 2)
    | _, _ => none

/-- Python `statistics.mean` on `Decimal` data: the exact fraction of the sum
by the count, converted back through one context division. -/
def pyMean (l : List ℚ) : Option ℚ :=
  if l.isEmpty then none else some (ctxRound (l.sum / (l.length : ℚ)))

/-- Embedding of `MockComparableCompanySource.aggregate_multiple`; note the
source raises a `DataSourceError` (not a `ValidationError`) on an unsupported
statistic. -/
def aggregate_multiple (comps : List ComparableCompany) (statistic : String) :
    Except Err ℚ :=
  let multiples := comps.map ComparableCompany.ev_to_revenue
  if statistic = "median" then
    match pyMedian multiples with
    | some m => .ok m
    | none => .error (.statisticsError "no median for empty data")
  else if statistic = "mean" then
    match pyMean multiples with
    | some m => .ok m
    | none => .error (.statisticsError "mean requires at least one data point")
  else .error (.dataSource ("Unsupported statistic \x27" ++ statistic ++ "\x27."))

/-- Modelled from the spec: `data_sources.MARKET_INDEX_DATASET_VERSION`.
The constant is imported by `methodologies/last_round.py` and its serialized
presence is asserted by the determinism tests, but its definition is absent
from the sources provided. Spec §4.4 requires the citation to include a
dataset version string and §3 requires empty optional citation fields to be
omitted, so it is modelled as a fixed non-empty version string. -/
def MARKET_INDEX_DATASET_VERSION : String := "mock-index-2026-02"

/-- Modelled from the spec: `vc_audit_tool.__version__` (the package
`__init__.py` is absent from the sources provided); the constant engine
version string recorded in audit metadata. -/
def ENGINE_VERSION : String := "0.1.0"

/-- Round half-even to `dp` decimal places (Python `round(x, dp)` and the
rounding used by fixed-point format specifiers). -/
def rndAt (dp : ℕ) (q : ℚ) : ℚ := (rndHE (q * 10 ^ dp) : ℚ) / 10 ^ dp

/-- Fixed-point rendering with `dp` decimal places, half-even — the `.Nf`
format applied to the exact value. The source formats through `float(...)` for
presentation; the binary-double detour is deterministic and is modelled by
exact-value rendering, which no claim inspects digit-by-digit. -/
def fmtF (dp : ℕ) (q : ℚ) : String :=
  let k := rndHE (q * 10 ^ dp)
  let a := k.natAbs
  let s := toString (a / 10 ^ dp) ++ (if dp = 0 then "" else "." ++ natPad dp (a % 10 ^ dp))
  if k < 0 then "-" ++ s else s

/-- Thousands grouping of a reversed digit list (`,` every three digits). -/
def cgAux : ℕ → List Char → List Char
  | _, [] => []
  | i, c :: r => if i ≠ 0 ∧ i % 3 = 0 then ',' :: c :: cgAux (i + 1) r else c :: cgAux (i + 1) r

/-- Fixed-point rendering with thousands separators (the `,.Nf` format). -/
def fmtComma (dp : ℕ) (q : ℚ) : String :=
  let k := rndHE (q * 10 ^ dp)
  let a := k.natAbs
  let ip := String.mk ((cgAux 0 (toString (a / 10 ^ dp)).data.reverse).reverse)
  let s := ip ++ (if dp = 0 then "" else "." ++ natPad dp (a % 10 ^ dp))
  if k < 0 then "-" ++ s else s

/-- Rendering `str(level)` of a mock index level or an `f"{level}"`
interpolation: every level stored in `_INDEX_LEVELS` carries exactly two
decimal places, so its `str` is its two-place fixed-point form. -/
def decimalStr2 (q : ℚ) : String := fmtF 2 q

/-- JSON-shaped values of the serialized result (`to_dict` output). Numbers
keep their exact value; the serializer's `float(...)` presentation cast is
deterministic and not further modelled. -/
inductive JVal where
  | jstr (s : String)
  | jnum (q : ℚ)
  | jint (n : ℤ)
  | jbool (b : Bool)
  | jnull
  | jlist (xs : List JVal)
  | jobj (fields : List (String × JVal))

mutual

/-- Faithful copy of a request input value into the serialized result. -/
def valToJ : Val → JVal
  | .vint n => .jint n
  | .vstr s => .jstr s
  | .vbool b => .jbool b
  | .vnull => .jnull
  | .vlist xs => .jlist (valToJList xs)
  | .vdict xs => .jobj (valToJDict xs)

/-- Elementwise copy of a list value. -/
def valToJList : List Val → List JVal
  | [] => []
  | v :: r => valToJ v :: valToJList r

/-- Itemwise copy of a dict value. -/
def valToJDict : List (String × Val) → List (String × JVal)
  | [] => []
  | (k, v) :: r => (k, valToJ v) :: valToJDict r

end

/-- Embedding of `models.Citation`. -/
structure Citation where
  label : String
  detail : String
  dataset_version : String := ""
  resolved_data_points : List String := []
deriving DecidableEq

/-- Embedding of `Citation.to_dict`: empty optional fields are omitted. -/
def citationToDict (c : Citation) : JVal :=
  .jobj ([("label", .jstr c.label), ("detail", .jstr c.detail)] ++
    (if c.dataset_version = "" then [] else [("dataset_version", .jstr c.dataset_version)]) ++
    (if c.resolved_data_points.isEmpty then []
     else [("resolved_data_points", .jlist (c.resolved_data_points.map JVal.jstr))]))

/-- Embedding of `models.MonetaryAmount`. -/
structure MonetaryAmount where
  amount : ℚ
  currency : String := "USD"
deriving DecidableEq

/-- Embedding of `MonetaryAmount.to_dict`. -/
def monetaryToDict (m : MonetaryAmount) : JVal :=
  .jobj [("amount", .jnum m.amount), ("currency", .jstr m.currency)]

/-- Embedding of `models.ValuationRequest` (already parsed, as consumed by
`ValuationEngine.evaluate`). -/
structure ValuationRequest where
  company_name : String
  methodology : String
  inputs : Inputs
  as_of_date : PyDate

/-- Embedding of `models.ValuationResult`. The `request_id` and
`generated_at_utc` default factories draw fresh values per construction; the
embedding threads those draws in explicitly as parameters. -/
structure ValuationResult where
  company_name : String
  methodology : String
  as_of_date : PyDate
  estimated_fair_value : MonetaryAmount
  assumptions : List String
  inputs_used : List (String × JVal)
  citations : List Citation
  derivation_steps : List String
  confidence_indicators : List (String × JVal)
  request_id : String
  generated_at_utc : String
  engine_version : String

/-- The `"valuation_result"` portion of `ValuationResult.to_dict`. -/
def valuationPart (r : ValuationResult) : JVal :=
  .jobj [("company_name", .jstr r.company_name),
    ("methodology", .jstr r.methodology),
    ("as_of_date", .jstr (isoformat r.as_of_date)),
    ("estimated_fair_value", monetaryToDict r.estimated_fair_value),
    ("assumptions", .jlist (r.assumptions.map JVal.jstr)),
    ("inputs_used", .jobj r.inputs_used),
    ("citations", .jlist (r.citations.map citationToDict)),
    ("derivation_steps", .jlist (r.derivation_steps.map JVal.jstr)),
    ("confidence_indicators", .jobj r.confidence_indicators)]

/-- The `"audit_metadata"` portion of `ValuationResult.to_dict`. -/
def auditPart (r : ValuationResult) : JVal :=
  .jobj [("request_id", .jstr r.request_id),
    ("generated_at_utc", .jstr r.generated_at_utc),
    ("engine_version", .jstr r.engine_version)]

/-- Embedding of `ValuationResult.to_dict`. -/
def resultToDict (r : ValuationResult) : JVal :=
  .jobj [("valuation_result", valuationPart r), ("audit_metadata", auditPart r)]

/-- Numeric value of a parsed decimal (specials are dispatched before any use
of this projection). -/
def pyDecQ (d : PyDec) : ℚ := d.toQ

/-- The allowed-statistic membership test `statistic in {"median", "mean"}`
(a non-string input object never equals either string). -/
def statAllowed : Val → Bool
  | .vstr s => s == "median" || s == "mean"
  | _ => false

/-- Result of the Python comparison `d > Decimal("100")` on a parsed decimal;
`none` models the `InvalidOperation` a NaN comparison raises (unreachable
after `parse_decimal`). -/
def decGt100 : PyDec → Option Bool
  | .fin neg c e => some (decide ((100 : ℚ) < (PyDec.fin neg c e).toQ))
  | .inf neg => some (!neg)
  | _ => none

/-- Truthiness of `inputs.get(key)` (absent key gives `None`, which is
falsy). -/
def pyTruthyOpt : Option Val → Bool
  | none => false
  | some v => pyTruthy v

/-- Embedding of `LastRoundMarketAdjustedMethodology.valuate`. -/
def lastRoundValuate (request : ValuationRequest) (requestId genAtUtc : String) :
    Except Err ValuationResult := do
  let inputs := request.inputs
  let lpmV ← require_field inputs "last_post_money_valuation" [.pint, .pfloat, .pstr]
  let last_post_money ← parse_decimal lpmV "last_post_money_valuation"
  let lrdV ← require_field inputs "last_round_date" [.pstr]
  let last_round_date ← parse_date lrdV
  let public_index := pyGetD inputs "public_index" (.vstr "NASDAQ_COMPOSITE")
  let last_round_level ← getLevelV public_index last_round_date
  let as_of_level ← getLevelV public_index request.as_of_date
  let pct_change := subC (divC as_of_level.level last_round_level.level) 1
  let multiplier := addC 1 pct_change
  let adjusted_value ← (match last_post_money with
    | .fin neg c e => quantize2 (mulC (pyDecQ (.fin neg c e)) multiplier)
    | _ => Except.error (Err.invalidOperation "decimal operation with a special value"))
  let lpmQ := pyDecQ last_post_money
  let assumptions := [
    "Method assumes valuation moves proportionally with " ++ pyStr public_index ++ ".",
    "Used index level on " ++ isoformat last_round_level.as_of_date ++
      " for last round and " ++ isoformat as_of_level.as_of_date ++ " for as-of date."]
  let derivation_steps := [
    "Start with last post-money valuation: " ++ fmtComma 2 lpmQ ++ " USD.",
    "Compute index change: (" ++ decimalStr2 as_of_level.level ++ " / " ++
      decimalStr2 last_round_level.level ++ ") - 1 = " ++
      fmtF 4 (mulC pct_change 100) ++ "%.",
    "Compute adjustment multiplier: 1 + " ++ fmtF 6 pct_change ++ " = " ++
      fmtF 6 multiplier ++ ".",
    "Apply multiplier to last valuation: " ++ fmtComma 2 lpmQ ++ " * " ++
      fmtF 6 multiplier ++ " = " ++ fmtComma 2 adjusted_value ++ " USD."]
  let citations := [Citation.mk "Mock market index dataset"
    ("In-memory monthly index levels for NASDAQ Composite and Russell 2000 " ++
      "(vc_audit_tool.data_sources.MockMarketIndexSource).")
    MARKET_INDEX_DATASET_VERSION
    [pyStr public_index ++ "@" ++ isoformat last_round_level.as_of_date ++ "=" ++
       decimalStr2 last_round_level.level,
     pyStr public_index ++ "@" ++ isoformat as_of_level.as_of_date ++ "=" ++
       decimalStr2 as_of_level.level]]
  let days_since_round : ℤ := (toOrdinal request.as_of_date : ℤ) - toOrdinal last_round_date
  let index_data_gap_days : ℤ :=
    (toOrdinal request.as_of_date : ℤ) - toOrdinal as_of_level.as_of_date
  let abs_pct := |mulC pct_change 100|
  let staleness_risk :=
    if 365 < days_since_round then "HIGH – last round >12 months ago"
    else if 180 < days_since_round then "MEDIUM – last round >6 months ago"
    else "LOW"
  let confidence_indicators : List (String × JVal) := [
    ("days_since_last_round", .jint days_since_round),
    ("index_data_freshness_gap_days", .jint index_data_gap_days),
    ("absolute_index_change_pct", .jnum (rndAt 4 abs_pct)),
    ("staleness_risk", .jstr staleness_risk),
    ("data_source_type", .jstr "mock")]
  pure { company_name := request.company_name
         methodology := "last_round_market_adjusted"
         as_of_date := request.as_of_date
         estimated_fair_value := { amount := adjusted_value }
         assumptions := assumptions
         inputs_used := [
           ("last_post_money_valuation", .jnum lpmQ),
           ("last_round_date", .jstr (isoformat last_round_date)),
           ("public_index", valToJ public_index),
           ("index_level_last_round", .jnum last_round_level.level),
           ("index_level_as_of_date", .jnum as_of_level.level)]
         citations := citations
         derivation_steps := derivation_steps
         confidence_indicators := confidence_indicators
         request_id := requestId
         generated_at_utc := genAtUtc
         engine_version := ENGINE_VERSION }

/-- Embedding of `ComparableCompaniesMethodology.valuate`. -/
def compsValuate (request : ValuationRequest) (requestId genAtUtc : String) :
    Except Err ValuationResult := do
  let inputs := request.inputs
  let revenueV ← require_field inputs "revenue_ltm" [.pint, .pfloat, .pstr]
  let revenue ← parse_decimal revenueV "revenue_ltm"
  let sectorV ← require_field inputs "sector" [.pstr]
  let sector := pyStr sectorV
  let statV := pyGetD inputs "statistic" (.vstr "median")
  let _ ← (if statAllowed statV = true then Except.ok PUnit.unit
    else Except.error
      (Err.validation "Field \x27statistic\x27 must be either \x27median\x27 or \x27mean\x27."))
  let statistic := pyStr statV
  let private_discount_pct ←
    parse_decimal (pyGetD inputs "private_company_discount_pct" (.vint 0))
      "private_company_discount_pct"
  let _ ← (match decGt100 private_discount_pct with
    | none => Except.error (Err.invalidOperation "comparison involving NaN")
    | some true => Except.error
        (Err.validation "Field \x27private_company_discount_pct\x27 cannot exceed 100.")
    | some false => Except.ok PUnit.unit)
  let tickersO := pyGet inputs "peer_tickers"
  let compsDesc ← (if pyTruthyOpt tickersO = true then
      match tickersO with
      | some (.vlist ts) =>
          (list_by_tickers ts).map (fun comps =>
            (comps, "explicit peer list (" ++
              String.intercalate ", " (comps.map ComparableCompany.ticker) ++ ")"))
      | _ => Except.error
          (Err.validation "Field \x27peer_tickers\x27 must be a list of ticker symbols.")
    else
      (list_by_sector sector).map (fun comps =>
        (comps, "sector peer set \x27" ++ sector ++ "\x27")))
  let comps := compsDesc.1
  let peer_group_descriptor := compsDesc.2
  let selected_multiple ← aggregate_multiple comps statistic
  let gross_value := mulC (pyDecQ revenue) selected_multiple
  let discount_multiplier := divC (subC 100 (pyDecQ private_discount_pct)) 100
  let adjusted_value ← (match revenue with
    | .fin _ _ _ => quantize2 (mulC gross_value discount_multiplier)
    | _ => Except.error (Err.invalidOperation "decimal operation with a special value"))
  let assumptions := [
    "Comparable universe based on " ++ peer_group_descriptor ++ ".",
    "Applied " ++ statistic ++ " EV/Revenue multiple of " ++
      fmtF 2 selected_multiple ++ "x.",
    "Applied private-company discount of " ++
      fmtF 2 (pyDecQ private_discount_pct) ++ "%."]
  let derivation_steps := [
    "Select peer multiple (" ++ statistic ++ "): " ++ fmtF 2 selected_multiple ++ "x.",
    "Apply multiple to LTM revenue: " ++ fmtComma 2 (pyDecQ revenue) ++ " * " ++
      fmtF 2 selected_multiple ++ " = " ++ fmtComma 2 gross_value ++ " USD.",
    "Compute discount multiplier: (100 - " ++ fmtF 2 (pyDecQ private_discount_pct) ++
      ") / 100 = " ++ fmtF 4 discount_multiplier ++ ".",
    "Apply private-company discount: " ++ fmtComma 2 gross_value ++ " * " ++
      fmtF 4 discount_multiplier ++ " = " ++ fmtComma 2 adjusted_value ++ " USD."]
  let citations := [Citation.mk "Mock public comp dataset"
    ("In-memory EV/Revenue multiples by ticker and sector " ++
      "(vc_audit_tool.data_sources.MockComparableCompanySource).") "" []]
  let peer_count := comps.length
  let multiples := comps.map ComparableCompany.ev_to_revenue
  let spread := match multiples.max?, multiples.min? with
    | some mx, some mn => mx - mn
    | _, _ => (0 : ℚ)
  let peer_set_quality :=
    if peer_count < 3 then "LOW – fewer than 3 comparable companies"
    else if peer_count < 5 then "MEDIUM – 3-4 comparable companies"
    else "HIGH – 5+ comparable companies"
  let confidence_indicators : List (String × JVal) := [
    ("peer_count", .jint peer_count),
    ("multiple_spread", .jnum (rndAt 2 spread)),
    ("peer_set_quality", .jstr peer_set_quality),
    ("data_source_type", .jstr "mock")]
  pure { company_name := request.company_name
         methodology := "comparable_companies"
         as_of_date := request.as_of_date
         estimated_fair_value := { amount := adjusted_value }
         assumptions := assumptions
         inputs_used := [
           ("revenue_ltm", .jnum (pyDecQ revenue)),
           ("sector", .jstr sector),
           ("statistic", .jstr statistic),
           ("peer_companies", .jlist (comps.map (fun c => JVal.jobj [
              ("ticker", .jstr c.ticker),
              ("company_name", .jstr c.company_name),
              ("ev_to_revenue", .jnum c.ev_to_revenue)]))),
           ("private_company_discount_pct", .jnum (pyDecQ private_discount_pct))]
         citations := citations
         derivation_steps := derivation_steps
         confidence_indicators := confidence_indicators
         request_id := requestId
         generated_at_utc := genAtUtc
         engine_version := ENGINE_VERSION }

/-- Embedding of `ValuationEngine.evaluate`: registry dispatch on the
methodology name, with the sorted list of available names in the error. -/
def engineEvaluate (request : ValuationRequest) (requestId genAtUtc : String) :
    Except Err ValuationResult :=
  if request.methodology = "last_round_market_adjusted" then
    lastRoundValuate request requestId genAtUtc
  else if request.methodology = "comparable_companies" then
    compsValuate request requestId genAtUtc
  else
    .error (.validation ("Unknown methodology \x27" ++ request.methodology ++
      "\x27. Available: comparable_companies, last_round_market_adjusted."))

/-- Recognizer for the dead `aggregate_multiple` unsupported-statistic error
(the message begins `Unsupported statistic `). -/
def unsupportedStat : Err → Bool
  | .dataSource m => m.data.take 22 == ("Unsupported statistic ").data
  | _ => false

/-- Lifting of `unsupportedStat` to computation results. -/
def unsupportedStatHit : Except Err ValuationResult → Bool
  | .error e => unsupportedStat e
  | .ok _ => false

/-- Finiteness of a parsed decimal. -/
def PyDec.isFinite : PyDec → Bool
  | .fin _ _ _ => true
  | _ => false

/-! Concrete requests used by closed counterexamples and witnesses. -/

/-- Concrete scenario A request of spec §8. -/
def scenarioARequest : ValuationRequest :=
  ValuationRequest.mk "Basis AI" "last_round_market_adjusted"
    [("last_post_money_valuation", Val.vint 100000000),
     ("last_round_date", Val.vstr "2024-06-30"),
     ("public_index", Val.vstr "NASDAQ_COMPOSITE")]
    ⟨2026, 2, 18⟩

/-- Same-date last-round request whose valuation has three decimal places. -/
def sameDateReq : ValuationRequest :=
  ValuationRequest.mk "X" "last_round_market_adjusted"
    [("last_post_money_valuation", Val.vstr "0.005"),
     ("last_round_date", Val.vstr "2026-02-18")]
    ⟨2026, 2, 18⟩

/-- Same-date last-round request with a two-decimal-place valuation. -/
def sameDateReqExact : ValuationRequest :=
  ValuationRequest.mk "X" "last_round_market_adjusted"
    [("last_post_money_valuation", Val.vint 100000000),
     ("last_round_date", Val.vstr "2026-02-18"),
     ("public_index", Val.vstr "NASDAQ_COMPOSITE")]
    ⟨2026, 2, 18⟩

/-- Comparable-companies request with omitted discount and a revenue whose
gross value has four decimal places. -/
def tinyRevenueReq : ValuationRequest :=
  ValuationRequest.mk "Z" "comparable_companies"
    [("sector", Val.vstr "enterprise_software"),
     ("revenue_ltm", Val.vstr "0.001")]
    ⟨2026, 2, 18⟩

/-- Scenario-B-like comparable-companies request with zero discount. -/
def compsZeroDiscountReq : ValuationRequest :=
  ValuationRequest.mk "Y" "comparable_companies"
    [("sector", Val.vstr "enterprise_software"),
     ("revenue_ltm", Val.vint 10000000),
     ("statistic", Val.vstr "median"),
     ("private_company_discount_pct", Val.vint 0)]
    ⟨2026, 2, 18⟩

attribute [local semireducible] Rat.add Rat.sub Rat.mul Rat.inv Rat.ofScientific

deriving instance DecidableEq for Except

/-- Helper simp lemmas for the `Except` monad chain. -/
theorem ebind_ok {α β : Type} (a : α) (f : α → Except Err β) :
    (Except.ok a >>= f) = f a := rfl

theorem ebind_err {α β : Type} (e : Err) (f : α → Except Err β) :
    ((Except.error e : Except Err α) >>= f) = Except.error e := rfl

theorem emap_ok {α β : Type} (f : α → β) (a : α) :
    (Except.ok a : Except Err α).map f = .ok (f a) := rfl

theorem emap_err {α β : Type} (f : α → β) (e : Err) :
    (Except.error e : Except Err α).map f = .error e := rfl

theorem epure_eq_ok {α : Type} (a : α) : (pure a : Except Err α) = .ok a := rfl

/-- Inversion of a successful `Except` bind. -/
theorem ebind_ok_inv {α β : Type} {e : Except Err α} {f : α → Except Err β} {b : β}
    (h : (e >>= f) = .ok b) : ∃ a, e = .ok a ∧ f a = .ok b := by
  cases e with
  | error err => exact absurd h (by simp [ebind_err])
  | ok a => exact ⟨a, rfl, h⟩

/-- C1: for the scenario A request (Basis AI, last-round market-adjusted as of
2026-02-18, last round 2024-06-30 at NASDAQ_COMPOSITE 17637.12, as-of level
21311.12), the engine returns an estimated fair value of 120831065.39 USD. -/
theorem c1_scenario_a_fair_value :
    (engineEvaluate scenarioARequest "rid" "ts").toOption.map
        (fun r => (r.estimated_fair_value.amount, r.estimated_fair_value.currency)) =
      some (((12083106539 : ℚ) / 100), "USD") := by
  decide

/-- C4 counterexample: a valid last-round request with
`last_round_date = as_of_date` and `last_post_money_valuation = "0.005"`
returns 0.00 (the final `quantize(Decimal("0.01"))` rounds half-even), which
differs from the provided valuation 0.005. -/
theorem c4_counterexample :
    (lastRoundValuate sameDateReq "" "").toOption.map
        (fun r => r.estimated_fair_value.amount) = some 0 ∧
    parse_decimal (Val.vstr "0.005") "last_post_money_valuation" =
      .ok (.fin false 5 (-3)) ∧
    (PyDec.fin false 5 (-3)).toQ = 1 / 200 ∧ (0 : ℚ) ≠ 1 / 200 := by
  refine ⟨by decide, by decide, by decide, by decide⟩

/-- C5 counterexample: a comparable-companies request with omitted discount
(default 0) and `revenue_ltm = "0.001"` in sector `enterprise_software`
(median multiple 12.1) returns 0.01, not the exact product 0.0121. -/
theorem c5_counterexample :
    (compsValuate tinyRevenueReq "" "").toOption.map
        (fun r => r.estimated_fair_value.amount) = some (1 / 100) ∧
    parse_decimal (Val.vstr "0.001") "revenue_ltm" = .ok (.fin false 1 (-3)) ∧
    aggregate_multiple (COMPS.filter (fun c => c.sector == "enterprise_software"))
        "median" = .ok ((121 : ℚ) / 10) ∧
    (1 : ℚ) / 1000 * (121 / 10) ≠ 1 / 100 := by
  refine ⟨by decide, by decide, by decide, by decide⟩

/-- C6 counterexample: `aggregate_multiple` on a non-empty peer list with the
statistic `"average"` raises `DataSourceError` (a data-source error), not a
validation-kind error. -/
theorem c6_counterexample :
    aggregate_multiple [ComparableCompany.mk "SNOW" "Snowflake" "enterprise_software"
        (13.1 : ℚ)] "average" =
      .error (.dataSource "Unsupported statistic \x27average\x27.") ∧
    isValidationErr (aggregate_multiple [ComparableCompany.mk "SNOW" "Snowflake"
        "enterprise_software" (13.1 : ℚ)] "average") = false := by
  refine ⟨by decide, by decide⟩

/-- C7 counterexample: under CPython 3.11+ `date.fromisoformat`,
`parse_date("20240630")` succeeds and returns 2024-06-30 even though the
string is not in `YYYY-MM-DD` format. -/
theorem c7_counterexample :
    parse_date (Val.vstr "20240630") = .ok ⟨2024, 6, 30⟩ ∧
    specDateYYYYMMDD "20240630" = none := by
  refine ⟨by decide, by decide⟩

/-- C8 counterexample: `parse_decimal("NaN")` constructs a NaN decimal and the
uncaught `parsed < Decimal("0")` comparison raises `decimal.InvalidOperation`,
which is not a validation error. -/
theorem c8_counterexample :
    parse_decimal (Val.vstr "NaN") "x" =
      .error (.invalidOperation "comparison involving NaN") ∧
    isValidationErr (parse_decimal (Val.vstr "NaN") "x") = false := by
  refine ⟨by decide, by decide⟩

/-- List length is preserved by sorted insertion. -/
theorem insertSorted_length {α : Type} (le : α → α → Bool) (a : α) (l : List α) :
    (insertSorted le a l).length = l.length + 1 := by
  induction l with
  | nil => rfl
  | cons b r ih =>
    rw [insertSorted]
    by_cases h : le a b = true
    · rw [if_pos h]; rfl
    · rw [if_neg h]
      simp [List.length, ih]

/-- Sorting preserves length. -/
theorem pySortBy_length {α : Type} (le : α → α → Bool) (l : List α) :
    (pySortBy le l).length = l.length := by
  induction l with
  | nil => rfl
  | cons a r ih =>
    rw [pySortBy, insertSorted_length, ih]
    rfl

/-- Python `median` is defined on every non-empty data set. -/
theorem pyMedian_isSome (l : List ℚ) (h : l ≠ []) : ∃ m, pyMedian l = some m := by
  rw [pyMedian]
  have hlen : (pySortBy (fun a b => decide (a ≤ b)) l).length = l.length :=
    pySortBy_length _ l
  have hpos : 0 < (pySortBy (fun a b => decide (a ≤ b)) l).length := by
    rw [hlen]
    exact List.length_pos.mpr h
  set s := pySortBy (fun a b => decide (a ≤ b)) l with hs
  rw [if_neg (by omega)]
  by_cases hodd : s.length % 2 = 1
  · rw [if_pos hodd]
    have hlt : s.length / 2 < s.length := Nat.div_lt_self hpos (by norm_num)
    exact ⟨_, List.get?_eq_get hlt⟩
  · rw [if_neg hodd]
    have hlt1 : s.length / 2 - 1 < s.length := by omega
    have hlt2 : s.length / 2 < s.length := Nat.div_lt_self hpos (by norm_num)
    rw [List.get?_eq_get hlt1, List.get?_eq_get hlt2]
    exact ⟨_, rfl⟩

/-- C6 amended: on a non-empty peer list, `aggregate_multiple` raises a
data-source error (not a validation error) for any statistic other than
`median`/`mean`, and returns the decimal median/mean of the peer multiples for
those two. -/
theorem c6_aggregate_statistic (comps : List ComparableCompany) (stat : String)
    (hne : comps ≠ []) (h1 : stat ≠ "median") (h2 : stat ≠ "mean") :
    aggregate_multiple comps stat =
      .error (.dataSource ("Unsupported statistic \x27" ++ stat ++ "\x27.")) ∧
    isValidationErr (aggregate_multiple comps stat) = false ∧
    (∃ m, pyMedian (comps.map ComparableCompany.ev_to_revenue) = some m ∧
      aggregate_multiple comps "median" = .ok m) ∧
    (∃ m, pyMean (comps.map ComparableCompany.ev_to_revenue) = some m ∧
      aggregate_multiple comps "mean" = .ok m) := by
  have hmapne : comps.map ComparableCompany.ev_to_revenue ≠ [] := by
    simpa using hne
  have herr : aggregate_multiple comps stat =
      .error (.dataSource ("Unsupported statistic \x27" ++ stat ++ "\x27.")) := by
    rw [aggregate_multiple, if_neg h1, if_neg h2]
  refine ⟨herr, by rw [herr]; rfl, ?_, ?_⟩
  · obtain ⟨m, hm⟩ := pyMedian_isSome (comps.map ComparableCompany.ev_to_revenue) hmapne
    refine ⟨m, hm, ?_⟩
    rw [aggregate_multiple, if_pos rfl, hm]
  · have hmean : pyMean (comps.map ComparableCompany.ev_to_revenue) =
        some (ctxRound ((comps.map ComparableCompany.ev_to_revenue).sum /
          ((comps.map ComparableCompany.ev_to_revenue).length : ℚ))) := by
      rw [pyMean, if_neg (by simpa using hmapne)]
    refine ⟨_, hmean, ?_⟩
    rw [aggregate_multiple, if_neg (by decide), if_pos rfl, hmean]

/-- Witness for the C6 amended theorem at a concrete instance. -/
theorem c6_aggregate_statistic_witness :
    aggregate_multiple [ComparableCompany.mk "SNOW" "Snowflake" "enterprise_software"
        (13.1 : ℚ)] "average" =
      .error (.dataSource ("Unsupported statistic \x27" ++ "average" ++ "\x27.")) :=
  (c6_aggregate_statistic _ "average" (by decide) (by decide) (by decide)).1

/-- Every string satisfying the specification-shaped `YYYY-MM-DD` validator is
accepted by the modelled `date.fromisoformat` with the same date. -/
theorem specDateChars_imp (l : List Char) (dt : PyDate)
    (h : specDateChars l = some dt) : isoParseChars l = some dt := by
  rcases l with _ | ⟨a, l⟩
  · simp [specDateChars] at h
  rcases l with _ | ⟨b, l⟩
  · simp [specDateChars] at h
  rcases l with _ | ⟨c, l⟩
  · simp [specDateChars] at h
  rcases l with _ | ⟨d, l⟩
  · simp [specDateChars] at h
  rcases l with _ | ⟨e, l⟩
  · simp [specDateChars] at h
  rcases l with _ | ⟨f, l⟩
  · simp [specDateChars] at h
  rcases l with _ | ⟨g, l⟩
  · simp [specDateChars] at h
  rcases l with _ | ⟨hh, l⟩
  · simp [specDateChars] at h
  rcases l with _ | ⟨i, l⟩
  · simp [specDateChars] at h
  rcases l with _ | ⟨j, l⟩
  · simp [specDateChars] at h
  rcases l with _ | ⟨k, l⟩
  · -- exactly ten characters
    simp only [specDateChars] at h
    split_ifs at h with hc hv
    · obtain ⟨h1, h2, h3, h4, h5, h6, h7, h8, h9, h10⟩ := hc
      subst h5
      subst h8
      simp only [isoParseChars]
      rw [if_pos ⟨h1, h2, h3, h4⟩]
      rw [if_neg (by
        rintro ⟨-, hfW, -⟩
        rw [hfW] at h6
        exact absurd h6 (by decide))]
      rw [if_pos ⟨trivial, h6, h7, trivial, h9, h10⟩]
      rw [mkCalendarDate, if_pos hv]
      exact h
  · simp [specDateChars] at h

/-- C7 amended: `parse_date` accepts every structurally valid `YYYY-MM-DD`
string with the denoted date; strings the (CPython 3.11+) `fromisoformat`
grammar rejects yield the invalid-date validation error; non-string input
yields a validation error. The converse of the first part fails: other ISO
8601 layouts such as `YYYYMMDD` are also accepted (see the counterexample). -/
theorem c7_parse_date_amended :
    (∀ s dt, specDateYYYYMMDD s = some dt → parse_date (.vstr s) = .ok dt) ∧
    (∀ s, pyFromIso s = none → parse_date (.vstr s) =
      .error (.validation ("Invalid date \x27" ++ s ++ "\x27. Expected format: YYYY-MM-DD."))) ∧
    (∀ v, Val.isStr v = false → ∃ m, parse_date v = .error (.validation m)) := by
  refine ⟨?_, ?_, ?_⟩
  · intro s dt h
    have hi : pyFromIso s = some dt := specDateChars_imp s.data dt h
    simp only [parse_date, hi]
  · intro s h
    simp only [parse_date, h]
  · intro v hv
    cases v with
    | vstr s => simp [Val.isStr] at hv
    | vint n => exact ⟨_, rfl⟩
    | vbool b => exact ⟨_, rfl⟩
    | vlist xs => exact ⟨_, rfl⟩
    | vdict xs => exact ⟨_, rfl⟩
    | vnull => exact ⟨_, rfl⟩

/-- Witness for the C7 amended theorem at a concrete valid date. -/
theorem c7_parse_date_amended_witness :
    parse_date (Val.vstr "2024-02-29") = .ok ⟨2024, 2, 29⟩ :=
  c7_parse_date_amended.1 "2024-02-29" ⟨2024, 2, 29⟩ (by decide)

/-- On every non-boolean value, `parse_decimal` is the `Decimal(str(value))`
construction followed by the sign check. -/
theorem parse_decimal_nonbool (v : Val) (fn : String) (hb : Val.isBool v = false) :
    parse_decimal v fn = (match pyDecOfString (pyStr v) with
      | none => .error (.validation ("Field \x27" ++ fn ++ "\x27 must be numeric."))
      | some d => match d.ltZero with
        | none => .error (.invalidOperation "comparison involving NaN")
        | some true => .error (.validation ("Field \x27" ++ fn ++ "\x27 must be non-negative."))
        | some false => .ok d) := by
  cases v with
  | vbool b => simp [Val.isBool] at hb
  | vint n => rfl
  | vstr s => rfl
  | vlist xs => rfl
  | vdict xs => rfl
  | vnull => rfl

/-- C8 amended: `parse_decimal` returns a non-negative decimal or fails with a
validation error on every input except those whose decimal construction
yields a NaN, where the uncaught sign comparison raises
`decimal.InvalidOperation`; booleans, null, non-numeric strings and negative
parsed values all yield validation errors. -/
theorem c8_parse_decimal_amended (v : Val) (fn : String) :
    ((∃ d, parse_decimal v fn = .ok d ∧ d.ltZero = some false) ∨
     (∃ m, parse_decimal v fn = .error (.validation m)) ∨
     (parse_decimal v fn = .error (.invalidOperation "comparison involving NaN") ∧
       (pyDecOfString (pyStr v) = some .qnan ∨ pyDecOfString (pyStr v) = some .snan))) ∧
    (Val.isBool v = true → ∃ m, parse_decimal v fn = .error (.validation m)) ∧
    (v = .vnull → parse_decimal v fn =
      .error (.validation ("Field \x27" ++ fn ++ "\x27 must be numeric."))) ∧
    (∀ s, v = .vstr s → pyDecOfString s = none → parse_decimal v fn =
      .error (.validation ("Field \x27" ++ fn ++ "\x27 must be numeric."))) ∧
    (∀ d, pyDecOfString (pyStr v) = some d → d.ltZero = some true →
      Val.isBool v = false → parse_decimal v fn =
        .error (.validation ("Field \x27" ++ fn ++ "\x27 must be non-negative."))) := by
  refine ⟨?_, ?_, ?_, ?_, ?_⟩
  · by_cases hb : Val.isBool v = true
    · cases v with
      | vbool b => exact Or.inr (Or.inl ⟨_, rfl⟩)
      | vint n => simp [Val.isBool] at hb
      | vstr s => simp [Val.isBool] at hb
      | vlist xs => simp [Val.isBool] at hb
      | vdict xs => simp [Val.isBool] at hb
      | vnull => simp [Val.isBool] at hb
    · rw [parse_decimal_nonbool v fn (by simpa using hb)]
      cases hp : pyDecOfString (pyStr v) with
      | none => exact Or.inr (Or.inl ⟨_, rfl⟩)
      | some d =>
        cases hl : d.ltZero with
        | none =>
          cases d with
          | fin neg c e => simp [PyDec.ltZero] at hl
          | inf neg => simp [PyDec.ltZero] at hl
          | qnan => exact Or.inr (Or.inr ⟨rfl, Or.inl rfl⟩)
          | snan => exact Or.inr (Or.inr ⟨rfl, Or.inr rfl⟩)
        | some b =>
          cases b with
          | true => exact Or.inr (Or.inl ⟨_, by simp only [hl]; rfl⟩)
          | false => exact Or.inl ⟨_, by simp only [hl], hl⟩
  · intro hb
    cases v with
    | vbool b => exact ⟨_, rfl⟩
    | vint n => simp [Val.isBool] at hb
    | vstr s => simp [Val.isBool] at hb
    | vlist xs => simp [Val.isBool] at hb
    | vdict xs => simp [Val.isBool] at hb
    | vnull => simp [Val.isBool] at hb
  · intro hv
    subst hv
    rw [parse_decimal_nonbool Val.vnull fn rfl]
    have hp : pyDecOfString (pyStr .vnull) = none := by decide
    rw [hp]
  · intro s hv hp
    subst hv
    rw [parse_decimal_nonbool (Val.vstr s) fn rfl]
    have he : pyStr (Val.vstr s) = s := rfl
    rw [he, hp]
  · intro d hp hl hb
    rw [parse_decimal_nonbool v fn hb, hp]
    simp only [hl]

/-- Witness for the C8 amended theorem: a negative integer input produces the
non-negative validation error. -/
theorem c8_parse_decimal_amended_witness :
    parse_decimal (Val.vint (-5)) "x" =
      .error (.validation ("Field \x27" ++ "x" ++ "\x27 must be non-negative.")) :=
  (c8_parse_decimal_amended (Val.vint (-5)) "x").2.2.2.2 (PyDec.fin true 5 0)
    (by decide) (by decide) rfl

/-- C2: every successful last-round valuation carries exactly one citation,
with the (spec-modelled, non-empty) dataset version string and exactly two
resolved `index@date=level` data points — one per index lookup, at the
resolved closest-prior dates. -/
theorem c2_citation_shape (req : ValuationRequest) (rid gat : String)
    (res : ValuationResult)
    (h : lastRoundValuate req rid gat = .ok res) :
    MARKET_INDEX_DATASET_VERSION ≠ "" ∧
    ∃ p1 p2 : MarketIndexPoint,
      (∃ v d, require_field req.inputs "last_round_date" [.pstr] = .ok v ∧
        parse_date v = .ok d ∧
        getLevelV (pyGetD req.inputs "public_index" (.vstr "NASDAQ_COMPOSITE")) d = .ok p1) ∧
      getLevelV (pyGetD req.inputs "public_index" (.vstr "NASDAQ_COMPOSITE"))
        req.as_of_date = .ok p2 ∧
      res.citations = [Citation.mk "Mock market index dataset"
        ("In-memory monthly index levels for NASDAQ Composite and Russell 2000 " ++
          "(vc_audit_tool.data_sources.MockMarketIndexSource).")
        MARKET_INDEX_DATASET_VERSION
        [pyStr (pyGetD req.inputs "public_index" (.vstr "NASDAQ_COMPOSITE")) ++ "@" ++
           isoformat p1.as_of_date ++ "=" ++ decimalStr2 p1.level,
         pyStr (pyGetD req.inputs "public_index" (.vstr "NASDAQ_COMPOSITE")) ++ "@" ++
           isoformat p2.as_of_date ++ "=" ++ decimalStr2 p2.level]] := by
  refine ⟨by decide, ?_⟩
  simp only [lastRoundValuate] at h
  obtain ⟨lpmV, h1, h⟩ := ebind_ok_inv h
  obtain ⟨lpm, h2, h⟩ := ebind_ok_inv h
  obtain ⟨lrdV, h3, h⟩ := ebind_ok_inv h
  obtain ⟨lrd, h4, h⟩ := ebind_ok_inv h
  obtain ⟨p1, h5, h⟩ := ebind_ok_inv h
  obtain ⟨p2, h6, h⟩ := ebind_ok_inv h
  obtain ⟨adj, h7, h⟩ := ebind_ok_inv h
  rw [epure_eq_ok] at h
  injection h with h
  refine ⟨p1, p2, ⟨lrdV, lrd, h3, h4, h5⟩, h6, ?_⟩
  rw [← h]

/-- Total projection of the scenario A evaluation, used by witnesses. -/
def scenarioAResult : ValuationResult :=
  match lastRoundValuate scenarioARequest "rid" "ts" with
  | .ok r => r
  | .error _ => ValuationResult.mk "" "" ⟨1, 1, 1⟩ ⟨0, "USD"⟩ [] [] [] [] [] "" "" ""

/-- Witness for C2 at the scenario A request. -/
theorem c2_citation_shape_witness :
    MARKET_INDEX_DATASET_VERSION ≠ "" ∧
    ∃ p1 p2 : MarketIndexPoint,
      (∃ v d, require_field scenarioARequest.inputs "last_round_date" [.pstr] = .ok v ∧
        parse_date v = .ok d ∧
        getLevelV (pyGetD scenarioARequest.inputs "public_index"
          (.vstr "NASDAQ_COMPOSITE")) d = .ok p1) ∧
      getLevelV (pyGetD scenarioARequest.inputs "public_index" (.vstr "NASDAQ_COMPOSITE"))
        scenarioARequest.as_of_date = .ok p2 ∧
      scenarioAResult.citations = [Citation.mk "Mock market index dataset"
        ("In-memory monthly index levels for NASDAQ Composite and Russell 2000 " ++
          "(vc_audit_tool.data_sources.MockMarketIndexSource).")
        MARKET_INDEX_DATASET_VERSION
        [pyStr (pyGetD scenarioARequest.inputs "public_index" (.vstr "NASDAQ_COMPOSITE")) ++
           "@" ++ isoformat p1.as_of_date ++ "=" ++ decimalStr2 p1.level,
         pyStr (pyGetD scenarioARequest.inputs "public_index" (.vstr "NASDAQ_COMPOSITE")) ++
           "@" ++ isoformat p2.as_of_date ++ "=" ++ decimalStr2 p2.level]] :=
  c2_citation_shape scenarioARequest "rid" "ts" scenarioAResult rfl

/-- Positive levels are preserved through assoc-list lookup. -/
theorem lookup_pos (l : List (String × ℚ)) (key : String) (lv : ℚ)
    (hall : ∀ p ∈ l, 0 < p.2) (h : l.lookup key = some lv) : 0 < lv := by
  induction l with
  | nil => simp [List.lookup] at h
  | cons p rest ih =>
    rw [List.lookup] at h
    cases hbk : (key == p.1) with
    | true =>
      rw [hbk] at h
      injection h with h
      rw [← h]
      exact hall p (List.mem_cons_self p rest)
    | false =>
      rw [hbk] at h
      exact ih (fun q hq => hall q (List.mem_cons_of_mem p hq)) h

/-- Every level returned by `get_level` is positive (the mock histories only
hold positive levels). -/
theorem get_level_pos (s : String) (d : PyDate) (p : MarketIndexPoint)
    (h : get_level s d = .ok p) : 0 < p.level := by
  rw [get_level] at h
  cases hh : indexHistory s with
  | none => rw [hh] at h; exact absurd h (by simp)
  | some hist =>
    rw [hh] at h
    dsimp only [] at h
    have hhist : hist = nasdaqLevels ∨ hist = russellLevels := by
      rw [indexHistory] at hh
      by_cases h1 : s = "NASDAQ_COMPOSITE"
      · rw [if_pos h1] at hh; injection hh with hh; exact Or.inl hh.symm
      · rw [if_neg h1] at hh
        by_cases h2 : s = "RUSSELL_2000"
        · rw [if_pos h2] at hh; injection hh with hh; exact Or.inr hh.symm
        · rw [if_neg h2] at hh; exact absurd hh (by simp)
    have hall : ∀ q ∈ hist, 0 < q.2 := by
      rcases hhist with hh1 | hh1 <;> rw [hh1] <;> decide
    cases hl : (List.filter (fun dd => dateLe dd d)
        (pySortBy dateLe (hist.filterMap (fun q => pyFromIso q.1)))).getLast? with
    | none => rw [hl] at h; exact absurd h (by simp)
    | some chosen =>
      rw [hl] at h
      dsimp only [] at h
      cases hlk : hist.lookup (isoformat chosen) with
      | none => rw [hlk] at h; exact absurd h (by simp)
      | some lv =>
        rw [hlk] at h
        injection h with h
        rw [← h]
        exact lookup_pos hist (isoformat chosen) lv hall hlk

/-- Every level returned by `getLevelV` is positive. -/
theorem getLevelV_pos (v : Val) (d : PyDate) (p : MarketIndexPoint)
    (h : getLevelV v d = .ok p) : 0 < p.level := by
  cases v with
  | vstr s => exact get_level_pos s d p h
  | vint n => exact absurd h (by simp [getLevelV])
  | vbool b => exact absurd h (by simp [getLevelV])
  | vlist xs => exact absurd h (by simp [getLevelV])
  | vdict xs => exact absurd h (by simp [getLevelV])
  | vnull => exact absurd h (by simp [getLevelV])

/-- Context rounding is exact on integral multiples of 0.01 below `10 ^ 26`
in magnitude (at most 28 significant digits). -/
theorem ctxRound_exact_hundredth (q : ℚ) (k : ℤ) (hk : q = (k : ℚ) / 100)
    (hb : |q| < (10 : ℚ) ^ (26 : ℤ)) : ctxRound q = q := by
  by_cases hq : q = 0
  · rw [hq]; exact ctxRound_zero
  · have hspec := qMag_spec q hq
    have hne : (10 : ℚ) ≠ 0 := by norm_num
    have hmag : qMag q ≤ 25 := by
      by_contra hc
      push_neg at hc
      have h26 : (26 : ℤ) ≤ qMag q := by omega
      have : (10 : ℚ) ^ (26 : ℤ) ≤ (10 : ℚ) ^ qMag q :=
        zpow_le_zpow_right₀ (by norm_num) h26
      have := lt_of_le_of_lt (le_trans this hspec.1) hb
      exact lt_irrefl _ this
    apply ctxRound_exact q (k * 10 ^ (25 - qMag q).toNat)
    have h25 : (((25 - qMag q).toNat : ℤ)) = 25 - qMag q := Int.toNat_of_nonneg (by omega)
    have expand : ((k * 10 ^ (25 - qMag q).toNat : ℤ) : ℚ) =
        (k : ℚ) * (10 : ℚ) ^ ((25 : ℤ) - qMag q) := by
      push_cast
      rw [← zpow_natCast (10 : ℚ) (25 - qMag q).toNat, h25]
    rw [expand, mul_assoc, ← zpow_add₀ hne,
      show (25 : ℤ) - qMag q + (qMag q - 27) = -2 by ring, hk,
      show ((10 : ℚ) ^ (-2 : ℤ)) = (100 : ℚ)⁻¹ by norm_num, div_eq_mul_inv]

/-- Quantization to two decimal places is exact (and in range) on integral
multiples of 0.01 below `10 ^ 26` in magnitude. -/
theorem quantize2_exact (q : ℚ) (k : ℤ) (hk : q = (k : ℚ) / 100)
    (hb : |q| < (10 : ℚ) ^ (26 : ℤ)) : quantize2 q = .ok q := by
  have hq100 : q * 100 = (k : ℚ) := by rw [hk]; field_simp
  have habs : |(k : ℚ)| < 10 ^ 28 := by
    rw [← hq100, abs_mul]
    have h100 : |(100 : ℚ)| = 100 := by norm_num
    rw [h100]
    have : (10 : ℚ) ^ (26 : ℤ) * 100 = 10 ^ 28 := by norm_num
    calc |q| * 100 < (10 : ℚ) ^ (26 : ℤ) * 100 := by
          have : (0 : ℚ) < 100 := by norm_num
          exact mul_lt_mul_of_pos_right hb this
      _ = 10 ^ 28 := this
  have hnat : k.natAbs < 10 ^ 28 := by
    have h1 : ((k.natAbs : ℚ)) = |(k : ℚ)| := by
      rw [Int.cast_natAbs, Int.cast_abs]
    have h2 : ((k.natAbs : ℚ)) < ((10 ^ 28 : ℕ) : ℚ) := by
      rw [h1]
      exact_mod_cast habs
    exact_mod_cast h2
  simp only [quantize2]
  rw [hq100, rndHE_intCast, if_pos hnat, ← hk]

/-- C4 (amended): for a valid last-round request whose last-round date equals
the as-of date, the estimated fair value equals the parsed last post-money
valuation rounded to two decimal places; it equals the input exactly whenever
the parsed value is a multiple of 0.01 below 10^26 in magnitude (the index
ratio is 1, but the final quantize step rounds). -/
theorem c4_same_date_rounded (req : ValuationRequest) (rid gat : String)
    (res : ValuationResult) (dec : PyDec) (k : ℤ)
    (hrun : lastRoundValuate req rid gat = .ok res)
    (hdate : ∃ v, require_field req.inputs "last_round_date" [.pstr] = .ok v ∧
      parse_date v = .ok req.as_of_date)
    (hlpm : ∃ v, require_field req.inputs "last_post_money_valuation"
        [.pint, .pfloat, .pstr] = .ok v ∧
      parse_decimal v "last_post_money_valuation" = .ok dec)
    (hk : dec.toQ = (k : ℚ) / 100)
    (hb : |dec.toQ| < (10 : ℚ) ^ (26 : ℤ)) :
    res.estimated_fair_value.amount = dec.toQ := by
  obtain ⟨v0, hv0, hp0⟩ := hdate
  obtain ⟨w0, hw0, hq0⟩ := hlpm
  simp only [lastRoundValuate] at hrun
  obtain ⟨lpmV, h1, h⟩ := ebind_ok_inv hrun
  obtain ⟨lpm, h2, h⟩ := ebind_ok_inv h
  obtain ⟨lrdV, h3, h⟩ := ebind_ok_inv h
  obtain ⟨lrd, h4, h⟩ := ebind_ok_inv h
  obtain ⟨p1, h5, h⟩ := ebind_ok_inv h
  obtain ⟨p2, h6, h⟩ := ebind_ok_inv h
  obtain ⟨adj, h7, h⟩ := ebind_ok_inv h
  rw [epure_eq_ok] at h
  injection h with h
  rw [h1] at hw0
  injection hw0 with hw0
  subst hw0
  rw [h2] at hq0
  injection hq0 with hq0
  subst hq0
  rw [h3] at hv0
  injection hv0 with hv0
  subst hv0
  rw [h4] at hp0
  injection hp0 with hp0
  subst hp0
  rw [h5] at h6
  injection h6 with h6
  subst h6
  have hpos := getLevelV_pos _ _ _ h5
  have hLne : p1.level ≠ 0 := ne_of_gt hpos
  have hdiv : divC p1.level p1.level = 1 := by
    rw [divC, div_self hLne]
    exact ctxRound_one
  have hsub : subC 1 1 = 0 := by
    rw [subC]
    norm_num [ctxRound_zero]
  have hadd : addC 1 0 = 1 := by
    rw [addC]
    norm_num [ctxRound_one]
  rw [hdiv, hsub, hadd] at h7
  cases lpm with
  | fin neg c e =>
    have hmul : mulC (pyDecQ (PyDec.fin neg c e)) 1 = (PyDec.fin neg c e).toQ := by
      rw [mulC, mul_one]
      exact ctxRound_exact_hundredth _ k hk hb
    have h8 : quantize2 (mulC (pyDecQ (PyDec.fin neg c e)) 1) = .ok adj := h7
    rw [hmul, quantize2_exact _ k hk hb] at h8
    injection h8 with h8
    rw [← h]
    exact h8.symm
  | inf neg => simp at h7
  | qnan => simp at h7
  | snan => simp at h7
/-- The 28-digit context round leaves 100 unchanged. -/
theorem ctxRound_hundred : ctxRound 100 = 100 := by decide

/-- Inversion of a successful `Except.map`. -/
theorem emap_ok_inv {α β : Type} {e : Except Err α} {f : α → β} {b : β}
    (h : e.map f = .ok b) : ∃ a, e = .ok a ∧ f a = b := by
  cases e with
  | error e0 => exact absurd h (by simp [Except.map])
  | ok a =>
    simp only [Except.map, Except.ok.injEq] at h
    exact ⟨a, rfl, h⟩

/-- C5 (amended): for a valid comparable-companies request whose parsed
private-company discount is zero, the estimated fair value is the
two-decimal-place quantization of the context-rounded product of the parsed
revenue and the peer multiple aggregated (with the request's statistic) over
the request's resolved peer group — the sector peers when `peer_tickers` is
absent or falsy, the explicit ticker list otherwise; it equals the product
exactly whenever that product is a multiple of 0.01 below 10^26 in
magnitude. -/
theorem c5_zero_discount_gross (req : ValuationRequest) (rid gat : String)
    (res : ValuationResult)
    (hrun : compsValuate req rid gat = .ok res)
    (hdisc : ∃ dpct : PyDec, parse_decimal
        (pyGetD req.inputs "private_company_discount_pct" (.vint 0))
        "private_company_discount_pct" = .ok dpct ∧ dpct.toQ = 0) :
    ∃ (rev : PyDec) (comps : List ComparableCompany) (mult : ℚ),
      (∃ v, require_field req.inputs "revenue_ltm" [.pint, .pfloat, .pstr] = .ok v ∧
        parse_decimal v "revenue_ltm" = .ok rev) ∧
      ((pyTruthyOpt (pyGet req.inputs "peer_tickers") = false ∧
        ∃ sv, require_field req.inputs "sector" [.pstr] = .ok sv ∧
          list_by_sector (pyStr sv) = .ok comps) ∨
       (∃ ts, pyGet req.inputs "peer_tickers" = some (.vlist ts) ∧
         list_by_tickers ts = .ok comps)) ∧
      aggregate_multiple comps
        (pyStr (pyGetD req.inputs "statistic" (.vstr "median"))) = .ok mult ∧
      quantize2 (mulC (mulC (pyDecQ rev) mult) 1) = .ok res.estimated_fair_value.amount ∧
      (∀ k : ℤ, pyDecQ rev * mult = (k : ℚ) / 100 →
        |pyDecQ rev * mult| < (10 : ℚ) ^ (26 : ℤ) →
        res.estimated_fair_value.amount = pyDecQ rev * mult) := by
  obtain ⟨dpct, hdp, hd0⟩ := hdisc
  simp only [compsValuate] at hrun
  obtain ⟨revV, h1, h⟩ := ebind_ok_inv hrun
  obtain ⟨rev, h2, h⟩ := ebind_ok_inv h
  obtain ⟨sectorV, h3, h⟩ := ebind_ok_inv h
  obtain ⟨u1, h4, h⟩ := ebind_ok_inv h
  obtain ⟨dpct2, h5, h⟩ := ebind_ok_inv h
  obtain ⟨u2, h6, h⟩ := ebind_ok_inv h
  obtain ⟨cd, h7, h⟩ := ebind_ok_inv h
  obtain ⟨mult, h8, h⟩ := ebind_ok_inv h
  obtain ⟨adj, h9, h⟩ := ebind_ok_inv h
  rw [epure_eq_ok] at h
  injection h with h
  rw [h5] at hdp
  injection hdp with hdp
  subst hdp
  have hpeers : (pyTruthyOpt (pyGet req.inputs "peer_tickers") = false ∧
      ∃ sv, require_field req.inputs "sector" [.pstr] = .ok sv ∧
        list_by_sector (pyStr sv) = .ok cd.1) ∨
      (∃ ts, pyGet req.inputs "peer_tickers" = some (.vlist ts) ∧
        list_by_tickers ts = .ok cd.1) := by
    cases ht : pyTruthyOpt (pyGet req.inputs "peer_tickers") with
    | false =>
      simp only [ht, Bool.false_eq_true, if_false] at h7
      obtain ⟨comps0, hc0, hcd⟩ := emap_ok_inv h7
      subst hcd
      exact .inl ⟨rfl, sectorV, h3, hc0⟩
    | true =>
      cases hg : pyGet req.inputs "peer_tickers" with
      | none =>
        rw [hg] at ht
        exact absurd ht (by decide)
      | some v =>
        rw [hg] at ht h7
        simp only [ht, eq_self_iff_true, if_true] at h7
        cases v with
        | vlist ts =>
          obtain ⟨comps0, hc0, hcd⟩ := emap_ok_inv h7
          subst hcd
          exact .inr ⟨ts, rfl, hc0⟩
        | vstr s => injection h7
        | vint n => injection h7
        | vbool b => injection h7
        | vdict d => injection h7
        | vnull => injection h7
  have hdm : divC (subC 100 (pyDecQ dpct2)) 100 = 1 := by
    rw [show pyDecQ dpct2 = dpct2.toQ from rfl, hd0, subC]
    norm_num [ctxRound_hundred]
    rw [divC, div_self (by norm_num : (100 : ℚ) ≠ 0)]
    exact ctxRound_one
  cases rev with
  | fin neg c e =>
    have h10 : quantize2 (mulC (mulC (pyDecQ (PyDec.fin neg c e)) mult)
        (divC (subC 100 (pyDecQ dpct2)) 100)) = .ok adj := h9
    rw [hdm] at h10
    refine ⟨PyDec.fin neg c e, cd.1, mult, ⟨revV, h1, h2⟩, hpeers, h8, ?_, ?_⟩
    · rw [← h]
      exact h10
    · intro k hk hb
      have hm1 : mulC (pyDecQ (PyDec.fin neg c e)) mult =
          pyDecQ (PyDec.fin neg c e) * mult := by
        rw [mulC]
        exact ctxRound_exact_hundredth _ k hk hb
      have hm2 : mulC (pyDecQ (PyDec.fin neg c e) * mult) 1 =
          pyDecQ (PyDec.fin neg c e) * mult := by
        rw [mulC, mul_one]
        exact ctxRound_exact_hundredth _ k hk hb
      rw [hm1, hm2, quantize2_exact _ k hk hb] at h10
      injection h10 with h10
      rw [← h]
      exact h10.symm
  | inf neg => simp at h9
  | qnan => simp at h9
  | snan => simp at h9
/-- The concrete result of the exact same-date request. -/
def sameDateResult : ValuationResult :=
  match lastRoundValuate sameDateReqExact "rid" "ts" with
  | .ok r => r
  | .error _ => ValuationResult.mk "" "" ⟨1, 1, 1⟩ ⟨0, "USD"⟩ [] [] [] [] [] "" "" ""

/-- Witness for C4 at the exact same-date request. -/
theorem c4_same_date_rounded_witness :
    lastRoundValuate sameDateReqExact "rid" "ts" = .ok sameDateResult ∧
    sameDateResult.estimated_fair_value.amount = (100000000 : ℚ) := by
  refine ⟨rfl, ?_⟩
  have h := c4_same_date_rounded sameDateReqExact "rid" "ts" sameDateResult
    (PyDec.fin false 100000000 0) 10000000000 rfl
    ⟨Val.vstr "2026-02-18", rfl, rfl⟩
    ⟨Val.vint 100000000, rfl, rfl⟩
    (by decide) (by decide)
  rw [h]
  decide

/-- The concrete result of the zero-discount comps request. -/
def compsZeroResult : ValuationResult :=
  match compsValuate compsZeroDiscountReq "rid" "ts" with
  | .ok r => r
  | .error _ => ValuationResult.mk "" "" ⟨1, 1, 1⟩ ⟨0, "USD"⟩ [] [] [] [] [] "" "" ""

/-- Witness for C5 at the zero-discount comps request. -/
theorem c5_zero_discount_gross_witness :
    ∃ (rev : PyDec) (comps : List ComparableCompany) (mult : ℚ),
      (∃ v, require_field compsZeroDiscountReq.inputs "revenue_ltm"
          [.pint, .pfloat, .pstr] = .ok v ∧
        parse_decimal v "revenue_ltm" = .ok rev) ∧
      ((pyTruthyOpt (pyGet compsZeroDiscountReq.inputs "peer_tickers") = false ∧
        ∃ sv, require_field compsZeroDiscountReq.inputs "sector" [.pstr] = .ok sv ∧
          list_by_sector (pyStr sv) = .ok comps) ∨
       (∃ ts, pyGet compsZeroDiscountReq.inputs "peer_tickers" = some (.vlist ts) ∧
         list_by_tickers ts = .ok comps)) ∧
      aggregate_multiple comps
        (pyStr (pyGetD compsZeroDiscountReq.inputs "statistic" (.vstr "median"))) =
          .ok mult ∧
      quantize2 (mulC (mulC (pyDecQ rev) mult) 1) =
        .ok compsZeroResult.estimated_fair_value.amount ∧
      (∀ k : ℤ, pyDecQ rev * mult = (k : ℚ) / 100 →
        |pyDecQ rev * mult| < (10 : ℚ) ^ (26 : ℤ) →
        compsZeroResult.estimated_fair_value.amount = pyDecQ rev * mult) :=
  c5_zero_discount_gross compsZeroDiscountReq "rid" "ts" compsZeroResult rfl
    ⟨PyDec.fin false 0 0, rfl, by decide⟩

/-- Congruence for `Except.map` over a bind whose continuations agree after
projection. -/
theorem emap_bind {α β γ : Type} (e : Except Err α) (f g : α → Except Err β)
    (φ : β → γ) (h : ∀ a, (f a).map φ = (g a).map φ) :
    (e >>= f).map φ = (e >>= g).map φ := by
  cases e with
  | error err => rfl
  | ok a => exact h a

/-- The last-round valuation depends on the audit parameters only through the
audit metadata fields. -/
theorem lastRound_indep (req : ValuationRequest) (rid1 gat1 rid2 gat2 : String) :
    (lastRoundValuate req rid1 gat1).map (fun r => (valuationPart r, r.engine_version)) =
    (lastRoundValuate req rid2 gat2).map (fun r => (valuationPart r, r.engine_version)) := by
  simp only [lastRoundValuate]
  refine emap_bind _ _ _ _ (fun lpmV => ?_)
  refine emap_bind _ _ _ _ (fun lpm => ?_)
  refine emap_bind _ _ _ _ (fun lrdV => ?_)
  refine emap_bind _ _ _ _ (fun lrd => ?_)
  refine emap_bind _ _ _ _ (fun p1 => ?_)
  refine emap_bind _ _ _ _ (fun p2 => ?_)
  refine emap_bind _ _ _ _ (fun adj => ?_)
  rfl

/-- The comparable-companies valuation depends on the audit parameters only
through the audit metadata fields. -/
theorem comps_indep (req : ValuationRequest) (rid1 gat1 rid2 gat2 : String) :
    (compsValuate req rid1 gat1).map (fun r => (valuationPart r, r.engine_version)) =
    (compsValuate req rid2 gat2).map (fun r => (valuationPart r, r.engine_version)) := by
  simp only [compsValuate]
  refine emap_bind _ _ _ _ (fun revV => ?_)
  refine emap_bind _ _ _ _ (fun rev => ?_)
  refine emap_bind _ _ _ _ (fun sectorV => ?_)
  refine emap_bind _ _ _ _ (fun u1 => ?_)
  refine emap_bind _ _ _ _ (fun dpct => ?_)
  refine emap_bind _ _ _ _ (fun u2 => ?_)
  refine emap_bind _ _ _ _ (fun cd => ?_)
  refine emap_bind _ _ _ _ (fun mult => ?_)
  refine emap_bind _ _ _ _ (fun adj => ?_)
  rfl

/-- C3: for a fixed request, any two engine evaluations agree on the entire
serialized valuation_result portion and on the engine version; only the
per-invocation request id and timestamp can differ. -/
theorem c3_determinism (req : ValuationRequest) (rid1 gat1 rid2 gat2 : String) :
    (engineEvaluate req rid1 gat1).map (fun r => (valuationPart r, r.engine_version)) =
    (engineEvaluate req rid2 gat2).map (fun r => (valuationPart r, r.engine_version)) := by
  simp only [engineEvaluate]
  split_ifs with h1 h2
  · exact lastRound_indep req rid1 gat1 rid2 gat2
  · exact comps_indep req rid1 gat1 rid2 gat2
  · rfl
/-- Propagation of the dead-branch recognizer through a bind. -/
theorem hit_bind {α : Type} (e : Except Err α) (f : α → Except Err ValuationResult)
    (he : ∀ err, e = .error err → unsupportedStat err = false)
    (hf : ∀ a, unsupportedStatHit (f a) = false) :
    unsupportedStatHit (e >>= f) = false := by
  cases e with
  | error err => exact he err rfl
  | ok a => exact hf a

/-- A failing `Except.map` comes from a failing computation. -/
theorem emap_err_inv {α β : Type} {e : Except Err α} {f : α → β} {err : Err}
    (h : e.map f = .error err) : e = .error err := by
  cases e with
  | error e0 => simpa [Except.map] using h
  | ok a => exact absurd h (by simp [Except.map])

/-- Every `require_field` failure is a validation error, never the
unsupported-statistic data-source error. -/
theorem require_field_err (p : Inputs) (k : String) (tys : List PyType) (err : Err)
    (h : require_field p k tys = .error err) : unsupportedStat err = false := by
  simp only [require_field] at h
  split at h
  · injection h with h
    subst h
    rfl
  · injection h with h
    subst h
    rfl
  · split at h
    · injection h with h
      subst h
      rfl
    · split at h
      · cases h
      · injection h with h
        subst h
        rfl

/-- Every `parse_decimal` failure is a validation or invalid-operation error,
never the unsupported-statistic data-source error. -/
theorem parse_decimal_err (v : Val) (fn : String) (err : Err)
    (h : parse_decimal v fn = .error err) : unsupportedStat err = false := by
  simp only [parse_decimal] at h
  split at h
  · injection h with h
    subst h
    rfl
  · split at h
    · injection h with h
      subst h
      rfl
    · split at h
      · injection h with h
        subst h
        rfl
      · injection h with h
        subst h
        rfl
      · cases h

/-- No `list_by_tickers` failure is the unsupported-statistic error. -/
theorem list_by_tickers_err (ts : List Val) (err : Err)
    (h : list_by_tickers ts = .error err) : unsupportedStat err = false := by
  simp only [list_by_tickers] at h
  split at h
  · injection h with h
    subst h
    rfl
  · split at h
    · cases h
    · injection h with h
      subst h
      simp only [unsupportedStat]
      rw [String.data_append, String.data_append, List.append_assoc,
        List.take_append_eq_append_take,
        show (22 - ("Missing comps for tickers: ").data.length) = 0 from rfl,
        List.take_zero, List.append_nil]
      decide

/-- No `list_by_sector` failure is the unsupported-statistic error. -/
theorem list_by_sector_err (s : String) (err : Err)
    (h : list_by_sector s = .error err) : unsupportedStat err = false := by
  simp only [list_by_sector] at h
  split at h
  · injection h with h
    subst h
    simp only [unsupportedStat]
    rw [String.data_append, String.data_append, List.append_assoc,
      List.take_append_eq_append_take,
      show (22 - ("No comps configured for sector \x27").data.length) = 0 from rfl,
      List.take_zero, List.append_nil]
    decide
  · cases h

/-- No `quantize` failure is the unsupported-statistic error. -/
theorem quantize2_err (q : ℚ) (err : Err)
    (h : quantize2 q = .error err) : unsupportedStat err = false := by
  simp only [quantize2] at h
  split at h
  · cases h
  · injection h with h
    subst h
    rfl

/-- A value passing the statistic membership test prints as one of the two
supported names. -/
theorem statAllowed_names (v : Val) (h : statAllowed v = true) :
    pyStr v = "median" ∨ pyStr v = "mean" := by
  cases v with
  | vstr s =>
    simp only [statAllowed, Bool.or_eq_true, beq_iff_eq] at h
    exact h
  | vint n => exact absurd h (by simp [statAllowed])
  | vbool b => exact absurd h (by simp [statAllowed])
  | vnull => exact absurd h (by simp [statAllowed])
  | vlist l => exact absurd h (by simp [statAllowed])
  | vdict l => exact absurd h (by simp [statAllowed])

/-- With an allowed statistic, `aggregate_multiple` never fails with the
unsupported-statistic error. -/
theorem aggregate_err_allowed (comps : List ComparableCompany) (s : String)
    (hs : s = "median" ∨ s = "mean") (err : Err)
    (h : aggregate_multiple comps s = .error err) : unsupportedStat err = false := by
  rcases hs with rfl | rfl
  · rw [aggregate_multiple, if_pos rfl] at h
    split at h
    · cases h
    · injection h with h
      subst h
      rfl
  · rw [aggregate_multiple, if_neg (by decide), if_pos rfl] at h
    split at h
    · cases h
    · injection h with h
      subst h
      rfl

/-- C9: on every execution path through the comparable-companies `valuate`
entry point, the unsupported-statistic error branch inside
`aggregate_multiple` is unreachable, because the statistic is checked before
the peer group is resolved and aggregated. -/
theorem c9_unsupported_unreachable (req : ValuationRequest) (rid gat : String) :
    unsupportedStatHit (compsValuate req rid gat) = false := by
  simp only [compsValuate]
  refine hit_bind _ _ (fun err h => require_field_err _ _ _ _ h) (fun revV => ?_)
  refine hit_bind _ _ (fun err h => parse_decimal_err _ _ _ h) (fun rev => ?_)
  refine hit_bind _ _ (fun err h => require_field_err _ _ _ _ h) (fun sectorV => ?_)
  split
  case isTrue hstat =>
    simp only [ebind_ok]
    refine hit_bind _ _ (fun err h => parse_decimal_err _ _ _ h) (fun dpct => ?_)
    split
    · rfl
    · rfl
    · simp only [ebind_ok]
      refine hit_bind _ _ ?_ (fun cd => ?_)
      · intro err h
        split at h
        · split at h
          · exact list_by_tickers_err _ _ (emap_err_inv h)
          · injection h with h
            subst h
            rfl
        · exact list_by_sector_err _ _ (emap_err_inv h)
      · refine hit_bind _ _
          (fun err h => aggregate_err_allowed _ _ (statAllowed_names _ hstat) _ h)
          (fun mult => ?_)
        cases rev with
        | fin neg c e =>
          exact hit_bind _ _ (fun err h => quantize2_err _ _ h) (fun adj => rfl)
        | inf neg => rfl
        | qnan => rfl
        | snan => rfl
  case isFalse hstat => rfl
/-- `require_field` ignores a dropped unrelated key. -/
theorem require_field_drop (p : Inputs) (key k : String) (tys : List PyType)
    (h : k ≠ key) :
    require_field (pyDrop p key) k tys = require_field p k tys := by
  rw [require_field, require_field, pyGet_pyDrop_ne p key k h]

/-- `dict.get` ignores a dropped unrelated key. -/
theorem pyGetD_drop (p : Inputs) (key k : String) (d : Val) (h : k ≠ key) :
    pyGetD (pyDrop p key) k d = pyGetD p k d := by
  rw [pyGetD, pyGetD, pyGet_pyDrop_ne p key k h]

/-- A present but falsy `peer_tickers` input is ignored: the valuation equals
the one for the same request with the key removed. -/
theorem comps_falsy_drop (req : ValuationRequest) (rid gat : String) (v : Val)
    (hv : pyGet req.inputs "peer_tickers" = some v) (hf : pyTruthy v = false) :
    compsValuate req rid gat =
      compsValuate ⟨req.company_name, req.methodology,
        pyDrop req.inputs "peer_tickers", req.as_of_date⟩ rid gat := by
  have hto : pyTruthyOpt (some v) = false := hf
  simp only [compsValuate]
  rw [require_field_drop _ _ _ _ (by decide), require_field_drop _ _ _ _ (by decide),
    pyGetD_drop _ _ _ _ (by decide), pyGetD_drop _ _ _ _ (by decide),
    pyGet_pyDrop_self, hv, hto]
  simp only [show pyTruthyOpt none = false from rfl, Bool.false_eq_true, if_false]
/-- Inversion of a failing `Except` bind. -/
theorem ebind_err_inv {α β : Type} {e : Except Err α} {f : α → Except Err β}
    {err : Err} (h : (e >>= f) = .error err) :
    e = .error err ∨ ∃ a, e = .ok a ∧ f a = .error err := by
  cases e with
  | error e0 =>
    rw [ebind_err] at h
    injection h with h
    exact .inl (congrArg Except.error h)
  | ok a => exact .inr ⟨a, rfl, h⟩

/-- A `require_field` failure on `revenue_ltm` never carries the
peer-tickers message. -/
theorem require_field_rev_ne_peer (p : Inputs) (err : Err)
    (h : require_field p "revenue_ltm" [.pint, .pfloat, .pstr] = .error err) :
    err ≠ .validation "Field \x27peer_tickers\x27 must be a list of ticker symbols." := by
  simp only [require_field] at h
  split at h
  · injection h with h
    subst h
    decide
  · injection h with h
    subst h
    decide
  · split at h
    · injection h with h
      subst h
      decide
    · split at h
      · exact absurd h (by simp)
      · injection h with h
        subst h
        cases ‹Val› <;> simp only [pyTypeName] <;> decide

/-- A `require_field` failure on `sector` never carries the peer-tickers
message. -/
theorem require_field_sector_ne_peer (p : Inputs) (err : Err)
    (h : require_field p "sector" [.pstr] = .error err) :
    err ≠ .validation "Field \x27peer_tickers\x27 must be a list of ticker symbols." := by
  simp only [require_field] at h
  split at h
  · injection h with h
    subst h
    decide
  · injection h with h
    subst h
    decide
  · split at h
    · injection h with h
      subst h
      decide
    · split at h
      · exact absurd h (by simp)
      · injection h with h
        subst h
        cases ‹Val› <;> simp only [pyTypeName] <;> decide

/-- A `parse_decimal` failure on `revenue_ltm` never carries the
peer-tickers message. -/
theorem parse_decimal_rev_ne_peer (v : Val) (err : Err)
    (h : parse_decimal v "revenue_ltm" = .error err) :
    err ≠ .validation "Field \x27peer_tickers\x27 must be a list of ticker symbols." := by
  simp only [parse_decimal] at h
  split at h
  · injection h with h
    subst h
    decide
  · split at h
    · injection h with h
      subst h
      decide
    · split at h
      · injection h with h
        subst h
        decide
      · injection h with h
        subst h
        decide
      · exact absurd h (by simp)

/-- A `parse_decimal` failure on the discount never carries the peer-tickers
message. -/
theorem parse_decimal_disc_ne_peer (v : Val) (err : Err)
    (h : parse_decimal v "private_company_discount_pct" = .error err) :
    err ≠ .validation "Field \x27peer_tickers\x27 must be a list of ticker symbols." := by
  simp only [parse_decimal] at h
  split at h
  · injection h with h
    subst h
    decide
  · split at h
    · injection h with h
      subst h
      decide
    · split at h
      · injection h with h
        subst h
        decide
      · injection h with h
        subst h
        decide
      · exact absurd h (by simp)

/-- Every `list_by_sector` failure is a data-source error. -/
theorem list_by_sector_err_shape (s : String) (err : Err)
    (h : list_by_sector s = .error err) : ∃ m, err = .dataSource m := by
  simp only [list_by_sector] at h
  split at h
  · injection h with h
    exact ⟨_, h.symm⟩
  · exact absurd h (by simp)

/-- Every `list_by_tickers` failure is an attribute or data-source error. -/
theorem list_by_tickers_err_shape (ts : List Val) (err : Err)
    (h : list_by_tickers ts = .error err) :
    (∃ m, err = .attributeError m) ∨ (∃ m, err = .dataSource m) := by
  simp only [list_by_tickers] at h
  split at h
  · injection h with h
    exact .inl ⟨_, h.symm⟩
  · split at h
    · exact absurd h (by simp)
    · injection h with h
      exact .inr ⟨_, h.symm⟩

/-- Every `aggregate_multiple` failure is a statistics or data-source
error. -/
theorem aggregate_err_shape (comps : List ComparableCompany) (s : String) (err : Err)
    (h : aggregate_multiple comps s = .error err) :
    (∃ m, err = .statisticsError m) ∨ (∃ m, err = .dataSource m) := by
  simp only [aggregate_multiple] at h
  split at h
  · split at h
    · exact absurd h (by simp)
    · injection h with h
      exact .inl ⟨_, h.symm⟩
  · split at h
    · split at h
      · exact absurd h (by simp)
      · injection h with h
        exact .inl ⟨_, h.symm⟩
    · injection h with h
      exact .inr ⟨_, h.symm⟩

/-- Every `quantize` failure is an invalid-operation error. -/
theorem quantize2_err_shape (q : ℚ) (err : Err)
    (h : quantize2 q = .error err) : ∃ m, err = .invalidOperation m := by
  simp only [quantize2] at h
  split at h
  · exact absurd h (by simp)
  · injection h with h
    exact ⟨_, h.symm⟩

/-- The peer-tickers must-be-a-list error implies a present, truthy,
non-list `peer_tickers` input. -/
theorem comps_peer_err_inv (req : ValuationRequest) (rid gat : String)
    (h : compsValuate req rid gat =
      .error (.validation "Field \x27peer_tickers\x27 must be a list of ticker symbols.")) :
    ∃ v, pyGet req.inputs "peer_tickers" = some v ∧ pyTruthy v = true ∧
      v.isList = false := by
  simp only [compsValuate] at h
  rcases ebind_err_inv h with h | ⟨revV, h1, h⟩
  · exact absurd rfl (require_field_rev_ne_peer _ _ h)
  rcases ebind_err_inv h with h | ⟨rv, h2, h⟩
  · exact absurd rfl (parse_decimal_rev_ne_peer _ _ h)
  rcases ebind_err_inv h with h | ⟨sv, h3, h⟩
  · exact absurd rfl (require_field_sector_ne_peer _ _ h)
  rcases ebind_err_inv h with h | ⟨u1, h4, h⟩
  · split at h
    · exact Except.noConfusion h
    · injection h with h
      exact absurd h (by decide)
  rcases ebind_err_inv h with h | ⟨dpct, h5, h⟩
  · exact absurd rfl (parse_decimal_disc_ne_peer _ _ h)
  rcases ebind_err_inv h with h | ⟨u2, h6, h⟩
  · split at h
    · injection h with h
      exact absurd h (by decide)
    · injection h with h
      exact absurd h (by decide)
    · exact Except.noConfusion h
  rcases ebind_err_inv h with h | ⟨cd, h7, h⟩
  · split at h
    · rename_i ht
      cases hg : pyGet req.inputs "peer_tickers" with
      | none =>
        rw [hg] at ht
        exact absurd ht (by decide)
      | some v =>
        rw [hg] at ht h
        cases v with
        | vlist ts =>
          have h8 := emap_err_inv h
          rcases list_by_tickers_err_shape _ _ h8 with ⟨m, hm⟩ | ⟨m, hm⟩ <;>
            exact Err.noConfusion hm
        | vstr s => exact ⟨.vstr s, rfl, ht, rfl⟩
        | vint n => exact ⟨.vint n, rfl, ht, rfl⟩
        | vbool b => exact ⟨.vbool b, rfl, ht, rfl⟩
        | vdict d => exact ⟨.vdict d, rfl, ht, rfl⟩
        | vnull => exact absurd ht (by decide)
    · have h8 := emap_err_inv h
      obtain ⟨m, hm⟩ := list_by_sector_err_shape _ _ h8
      exact Err.noConfusion hm
  rcases ebind_err_inv h with h | ⟨mult, h8, h⟩
  · rcases aggregate_err_shape _ _ _ h with ⟨m, hm⟩ | ⟨m, hm⟩ <;>
      exact Err.noConfusion hm
  rcases ebind_err_inv h with h | ⟨adj, h9, h⟩
  · cases rv with
    | fin neg c e2 =>
      obtain ⟨m, hm⟩ := quantize2_err_shape _ _ h
      exact Err.noConfusion hm
    | inf neg =>
      injection h with h
      exact Err.noConfusion h
    | qnan =>
      injection h with h
      exact Err.noConfusion h
    | snan =>
      injection h with h
      exact Err.noConfusion h
  · exact Except.noConfusion h
/-- Comps request with a present but falsy (empty-list) `peer_tickers`. -/
def reqC10a : ValuationRequest :=
  ValuationRequest.mk "Y" "comparable_companies"
    [("sector", Val.vstr "enterprise_software"),
     ("revenue_ltm", Val.vint 10000000),
     ("peer_tickers", Val.vlist [])]
    ⟨2026, 2, 18⟩

/-- Comps request with a truthy non-list `peer_tickers`. -/
def reqC10b : ValuationRequest :=
  ValuationRequest.mk "Y" "comparable_companies"
    [("sector", Val.vstr "enterprise_software"),
     ("revenue_ltm", Val.vint 10000000),
     ("peer_tickers", Val.vstr "FAKE")]
    ⟨2026, 2, 18⟩

/-- C10: a present but falsy `peer_tickers` input is silently ignored (the
valuation equals the one with the key absent, so sector-based selection is
used), and the must-be-a-list validation error arises only when
`peer_tickers` is present, truthy, and not a list. -/
theorem c10_peer_tickers_truthiness :
    (∀ (req : ValuationRequest) (rid gat : String) (v : Val),
      pyGet req.inputs "peer_tickers" = some v → pyTruthy v = false →
      compsValuate req rid gat =
        compsValuate ⟨req.company_name, req.methodology,
          pyDrop req.inputs "peer_tickers", req.as_of_date⟩ rid gat) ∧
    (∀ (req : ValuationRequest) (rid gat : String),
      compsValuate req rid gat =
        .error (.validation "Field \x27peer_tickers\x27 must be a list of ticker symbols.") →
      ∃ v, pyGet req.inputs "peer_tickers" = some v ∧ pyTruthy v = true ∧
        v.isList = false) :=
  ⟨fun req rid gat v hv hf => comps_falsy_drop req rid gat v hv hf,
   fun req rid gat h => comps_peer_err_inv req rid gat h⟩

/-- Witness for C10 at an empty-list and at a string `peer_tickers`. -/
theorem c10_peer_tickers_truthiness_witness :
    (compsValuate reqC10a "r" "t" =
      compsValuate ⟨reqC10a.company_name, reqC10a.methodology,
        pyDrop reqC10a.inputs "peer_tickers", reqC10a.as_of_date⟩ "r" "t") ∧
    (∃ v, pyGet reqC10b.inputs "peer_tickers" = some v ∧ pyTruthy v = true ∧
      v.isList = false) :=
  ⟨c10_peer_tickers_truthiness.1 reqC10a "r" "t" (Val.vlist []) rfl rfl,
   c10_peer_tickers_truthiness.2 reqC10b "r" "t" rfl⟩
end VCAudit
